import Mathlib

/-!
Verification development for the Otto on-call escalation engine
(repository: open-telemetry/sig-project-infra, directory otto/).

The Lean definitions below are a shallow embedding of the Go source:
  * entity types from otto/modules/oncall/models.go
  * the in-memory repository semantics from the MockOnCallRepository
    (the map-backed implementation of the OnCallRepository interface);
    the handlers in models.go are written against the convention that a
    find operation reports absence as a nil result, which is exactly the
    behaviour of this in-repo implementation and of the module tests
  * the command handlers and the escalation sweeper from
    otto/modules/oncall/models.go
  * the SQLite assignment writes from otto/modules/oncall/repository.go
    (for the transactional-atomicity claim)
  * signature verification and webhook dispatch from
    otto/internal/server/server.go, with a full executable HMAC-SHA256
  * the module registry from otto/internal/module/module.go

Go time.Time values are modelled as integers (seconds); the zero value of
time.Time corresponds to 0, time.Now to an explicit `now` parameter.
Calls to uuid.New are modelled by explicit fresh-identifier parameters.
-/

namespace Otto

/-- Time instants, in seconds. The Go zero time is 0. -/
abbrev Time := Int

/-- OnCallUser, models.go lines 10-18. -/
structure OnCallUser where
  id : String
  githubUsername : String
  name : String
  email : String
  isActive : Bool
  createdAt : Time
  updatedAt : Time
deriving DecidableEq, Repr

/-- OnCallRotation, models.go lines 26-34. -/
structure OnCallRotation where
  id : String
  name : String
  description : String
  repository : String
  isActive : Bool
  createdAt : Time
  updatedAt : Time
deriving DecidableEq, Repr

/-- OnCallAssignment, models.go lines 42-51. The optional end time is a
plain time whose zero value means unset, as in Go. -/
structure OnCallAssignment where
  id : String
  rotationID : String
  userID : String
  startTime : Time
  endTime : Time
  isCurrent : Bool
  createdAt : Time
  updatedAt : Time
deriving DecidableEq, Repr

/-- EscalationStatus, models.go lines 78-89. -/
inductive EscalationStatus where
  | pending
  | acknowledged
  | resolved
  | escalated
deriving DecidableEq, Repr

/-- OnCallEscalation, models.go lines 59-70. Issue and PR numbers use 0
for unset, as the Go int zero value does. -/
structure OnCallEscalation where
  id : String
  assignmentID : String
  issueNumber : Nat
  prNumber : Nat
  repository : String
  status : EscalationStatus
  escalationTime : Time
  resolutionTime : Time
  createdAt : Time
  updatedAt : Time
deriving DecidableEq, Repr

/-- The persisted state: the four entity collections of the repository
(MockOnCallRepository, four maps keyed by entity id; modelled as lists in
which ids are unique). -/
structure Store where
  users : List OnCallUser
  rotations : List OnCallRotation
  assignments : List OnCallAssignment
  escalations : List OnCallEscalation
deriving DecidableEq, Repr

/-- The store with no data. -/
def emptyStore : Store := ⟨[], [], [], []⟩

/-- Go map assignment m[key a] = a over the list representation: replace
the entry with the same key if present, else append. -/
def upsertBy {α : Type} (key : α → String) (l : List α) (a : α) : List α :=
  if l.any (fun x => key x == key a) then
    l.map (fun x => if key x == key a then a else x)
  else l ++ [a]

/-- Ids are unique: no key occurs in more than one position. -/
def UniqueKeys {α : Type} (key : α → String) (l : List α) : Prop :=
  ∀ k : String, l.countP (fun x => key x == k) ≤ 1

/-! ### Repository operations (MockOnCallRepository, part_005)

Each create operation first applies the defaulting done by the Go code:
assign a fresh id when the id is empty, and set the two timestamps when
they are zero. -/

/-- Defaulting in MockOnCallRepository.CreateUser (part_005 lines 73-89);
the three sequential conditional field writes of the Go code touch
independent fields and are combined in one record update. -/
def userWithDefaults (freshId : String) (now : Time) (u : OnCallUser) : OnCallUser :=
  { u with
    id := if u.id = "" then freshId else u.id,
    createdAt := if u.createdAt = 0 then now else u.createdAt,
    updatedAt := if u.updatedAt = 0 then now else u.updatedAt }

/-- Defaulting in MockOnCallRepository.CreateRotation (part_005 lines 156-172). -/
def rotationWithDefaults (freshId : String) (now : Time) (r : OnCallRotation) : OnCallRotation :=
  { r with
    id := if r.id = "" then freshId else r.id,
    createdAt := if r.createdAt = 0 then now else r.createdAt,
    updatedAt := if r.updatedAt = 0 then now else r.updatedAt }

/-- Defaulting in MockOnCallRepository.CreateAssignment (part_005 lines 257-269). -/
def assignmentWithDefaults (freshId : String) (now : Time) (a : OnCallAssignment) : OnCallAssignment :=
  { a with
    id := if a.id = "" then freshId else a.id,
    createdAt := if a.createdAt = 0 then now else a.createdAt,
    updatedAt := if a.updatedAt = 0 then now else a.updatedAt }

/-- Defaulting in MockOnCallRepository.CreateEscalation (part_005 lines 402-418). -/
def escalationWithDefaults (freshId : String) (now : Time) (e : OnCallEscalation) : OnCallEscalation :=
  { e with
    id := if e.id = "" then freshId else e.id,
    createdAt := if e.createdAt = 0 then now else e.createdAt,
    updatedAt := if e.updatedAt = 0 then now else e.updatedAt }

/-- CreateUser (part_005 lines 73-89). -/
def createUser (s : Store) (freshId : String) (now : Time) (u : OnCallUser) : Store :=
  { s with users := upsertBy (·.id) s.users (userWithDefaults freshId now u) }

/-- CreateRotation (part_005 lines 156-172). -/
def createRotation (s : Store) (freshId : String) (now : Time) (r : OnCallRotation) : Store :=
  { s with rotations := upsertBy (·.id) s.rotations (rotationWithDefaults freshId now r) }

/-- The body of the loop that clears the current flag (and refreshes the
update timestamp) on every other assignment of the same rotation
(part_005 lines 271-280 and 297-306; repository.go reset query
lines 397-398 and 433-434). -/
def clearStep (rotationID id : String) (now : Time) (x : OnCallAssignment) :
    OnCallAssignment :=
  if x.rotationID == rotationID && x.id != id then
    { x with isCurrent := false, updatedAt := now }
  else x

/-- The loop body applied to the whole collection. -/
def clearOtherCurrent (assigns : List OnCallAssignment) (rotationID id : String)
    (now : Time) : List OnCallAssignment :=
  assigns.map (clearStep rotationID id now)

/-- CreateAssignment (part_005 lines 257-284): defaulting, then, when the
new assignment is current, clear the flag on every other assignment of
the rotation, then store the new assignment under its id. -/
def createAssignment (s : Store) (freshId : String) (now : Time)
    (a : OnCallAssignment) : Store :=
  let a := assignmentWithDefaults freshId now a
  let base :=
    if a.isCurrent then clearOtherCurrent s.assignments a.rotationID a.id now
    else s.assignments
  { s with assignments := upsertBy (·.id) base a }

/-- UpdateAssignment (part_005 lines 287-310): no-op when the id is
absent; otherwise refresh the update timestamp, clear the flag on other
assignments of the rotation when the update marks this one current, and
replace the stored assignment. -/
def updateAssignment (s : Store) (now : Time) (a : OnCallAssignment) : Store :=
  if s.assignments.any (fun x => x.id == a.id) then
    let a := { a with updatedAt := now }
    let base :=
      if a.isCurrent then clearOtherCurrent s.assignments a.rotationID a.id now
      else s.assignments
    { s with assignments := base.map (fun x => if x.id == a.id then a else x) }
  else s

/-- CreateEscalation (part_005 lines 402-418). -/
def createEscalation (s : Store) (freshId : String) (now : Time)
    (e : OnCallEscalation) : Store :=
  { s with escalations := upsertBy (·.id) s.escalations (escalationWithDefaults freshId now e) }

/-- UpdateEscalation (part_005 lines 421-432): no-op when the id is
absent; otherwise refresh the update timestamp and replace. -/
def updateEscalation (s : Store) (now : Time) (e : OnCallEscalation) : Store :=
  if s.escalations.any (fun x => x.id == e.id) then
    let e := { e with updatedAt := now }
    { s with escalations := s.escalations.map (fun x => if x.id == e.id then e else x) }
  else s

/-! ### Find operations (MockOnCallRepository); absence is an explicit
empty result, the convention the command handlers in models.go test with
nil checks. -/

/-- FindUserByID (part_005 lines 36-45). -/
def findUserByID (s : Store) (id : String) : Option OnCallUser :=
  s.users.find? (fun u => u.id == id)

/-- FindUserByGitHubUsername (part_005 lines 48-58). -/
def findUserByGitHubUsername (s : Store) (username : String) : Option OnCallUser :=
  s.users.find? (fun u => u.githubUsername == username)

/-- FindRotationsByRepository (part_005 lines 127-141). -/
def findRotationsByRepository (s : Store) (repository : String) : List OnCallRotation :=
  s.rotations.filter (fun r => r.repository == repository)

/-- FindCurrentAssignmentByRotation (part_005 lines 210-223;
repository.go lines 343-355 runs the same query). -/
def findCurrentAssignmentByRotation (s : Store) (rotationID : String) :
    Option OnCallAssignment :=
  s.assignments.find? (fun a => a.rotationID == rotationID && a.isCurrent)

/-- FindEscalationByID (part_005 lines 322-331). -/
def findEscalationByID (s : Store) (id : String) : Option OnCallEscalation :=
  s.escalations.find? (fun e => e.id == id)

/-- FindEscalationByIssue (part_005 lines 368-382; repository.go
lines 517-529 runs the same query). -/
def findEscalationByIssue (s : Store) (repository : String) (issueNumber : Nat) :
    Option OnCallEscalation :=
  s.escalations.find? (fun e => e.repository == repository && e.issueNumber == issueNumber)

/-- FindEscalationByPR (part_005 lines 385-399). -/
def findEscalationByPR (s : Store) (repository : String) (prNumber : Nat) :
    Option OnCallEscalation :=
  s.escalations.find? (fun e => e.repository == repository && e.prNumber == prNumber)

/-- FindEscalationsByStatus (part_005 lines 334-348). -/
def findEscalationsByStatus (s : Store) (status : EscalationStatus) :
    List OnCallEscalation :=
  s.escalations.filter (fun e => e.status == status)

/-! ### Outbound notifications (models.go lines 963-995)

A posted comment is recorded as a Notification. The GitHub client is the
fire-and-forget collaborator; posting succeeds whenever the repository
name splits into exactly two parts around a slash, which is the only
failure the Go helpers check. -/

/-- A comment posted to the hosting platform. -/
structure Notification where
  repo : String
  number : Nat
  body : String
deriving DecidableEq, Repr

/-- Result of one handler invocation or sweeper tick: the persisted store
after the call, the comments posted during it, and the error returned to
the dispatcher, if any. -/
structure StepResult where
  store : Store
  notes : List Notification
  err : Option String
deriving DecidableEq, Repr

/-- strings.Split on a single character. -/
def splitOnChar (c : Char) : List Char → List (List Char)
  | [] => [[]]
  | x :: xs =>
    let r := splitOnChar c xs
    if x = c then [] :: r
    else
      match r with
      | h :: t => (x :: h) :: t
      | [] => [[x]]

/-- postIssueComment (models.go lines 963-977): reject a repository name
that does not split into exactly owner and name, else post. -/
def postIssueComment (s : Store) (repo : String) (number : Nat) (body : String) :
    StepResult :=
  match splitOnChar (Char.ofNat 47) repo.data with
  | [_, _] => { store := s, notes := [⟨repo, number, body⟩], err := none }
  | _ => { store := s, notes := [], err := some ("invalid repository name: " ++ repo) }

/-- postPRComment (models.go lines 980-995): same checks, PR comments are
issue comments in the hosting-platform API. -/
def postPRComment (s : Store) (repo : String) (number : Nat) (body : String) :
    StepResult :=
  match splitOnChar (Char.ofNat 47) repo.data with
  | [_, _] => { store := s, notes := [⟨repo, number, body⟩], err := none }
  | _ => { store := s, notes := [], err := some ("invalid repository name: " ++ repo) }

/-! ### Command handlers (models.go lines 390-958)

Calls to uuid.New().String() are modelled by the explicit fresh-id
parameters uid, rid, aid, eid (user, rotation, assignment, escalation);
time.Now() by the parameter now. -/

/-- handleAckCommand (models.go lines 390-500). -/
def handleAckCommand (s : Store) (now : Time) (uid rid aid eid : String)
    (repo : String) (issueNumber : Nat) (commenter : String) : StepResult :=
  match findEscalationByIssue s repo issueNumber with
  | none =>
    let su :=
      match findUserByGitHubUsername s commenter with
      | some u => (s, u)
      | none =>
        let u : OnCallUser :=
          { id := uid, githubUsername := commenter, name := commenter, email := "",
            isActive := true, createdAt := now, updatedAt := now }
        (createUser s uid now u, u)
    let s1 := su.1
    let user := su.2
    let sr :=
      match findRotationsByRepository s1 repo with
      | [] =>
        let rot : OnCallRotation :=
          { id := rid, name := repo ++ " Default Rotation",
            description := "Default rotation created automatically",
            repository := repo, isActive := true, createdAt := now, updatedAt := now }
        (createRotation s1 rid now rot, rot.id)
      | r :: _ => (s1, r.id)
    let s2 := sr.1
    let rotationID := sr.2
    let assignment : OnCallAssignment :=
      { id := aid, rotationID := rotationID, userID := user.id, startTime := now,
        endTime := 0, isCurrent := true, createdAt := now, updatedAt := now }
    let s3 := createAssignment s2 aid now assignment
    let esc : OnCallEscalation :=
      { id := eid, assignmentID := assignment.id, issueNumber := issueNumber,
        prNumber := 0, repository := repo, status := .acknowledged,
        escalationTime := 0, resolutionTime := 0, createdAt := now, updatedAt := now }
    let s4 := createEscalation s3 eid now esc
    postIssueComment s4 repo issueNumber ("@" ++ commenter ++ " has acknowledged this issue.")
  | some escalation =>
    if escalation.status = .pending ∨ escalation.status = .escalated then
      let esc := { escalation with status := .acknowledged, updatedAt := now }
      let s1 := updateEscalation s now esc
      postIssueComment s1 repo issueNumber ("@" ++ commenter ++ " has acknowledged this issue.")
    else
      { store := s, notes := [], err := none }

/-- handleEscalateCommand (models.go lines 504-589). -/
def handleEscalateCommand (s : Store) (now : Time) (eid : String)
    (repo : String) (issueNumber : Nat) : StepResult :=
  match findEscalationByIssue s repo issueNumber with
  | none =>
    let esc : OnCallEscalation :=
      { id := eid, assignmentID := "", issueNumber := issueNumber, prNumber := 0,
        repository := repo, status := .escalated, escalationTime := now,
        resolutionTime := 0, createdAt := now, updatedAt := now }
    let s1 := createEscalation s eid now esc
    match findRotationsByRepository s1 repo with
    | [] => postIssueComment s1 repo issueNumber "This issue has been marked for escalation."
    | r :: _ =>
      match findCurrentAssignmentByRotation s1 r.id with
      | none => postIssueComment s1 repo issueNumber "This issue has been marked for escalation."
      | some assignment =>
        let esc2 := { esc with assignmentID := assignment.id }
        let s2 := updateEscalation s1 now esc2
        match findUserByID s2 assignment.userID with
        | none => postIssueComment s2 repo issueNumber "This issue has been marked for escalation."
        | some user =>
          postIssueComment s2 repo issueNumber
            ("This issue has been escalated to @" ++ user.githubUsername ++ ".")
  | some escalation =>
    let esc := { escalation with status := .escalated, escalationTime := now, updatedAt := now }
    let s1 := updateEscalation s now esc
    postIssueComment s1 repo issueNumber "This issue has been re-escalated."

/-- handleResolveCommand (models.go lines 592-621). -/
def handleResolveCommand (s : Store) (now : Time)
    (repo : String) (issueNumber : Nat) (commenter : String) : StepResult :=
  match findEscalationByIssue s repo issueNumber with
  | none => { store := s, notes := [], err := none }
  | some escalation =>
    let esc := { escalation with status := .resolved, resolutionTime := now, updatedAt := now }
    let s1 := updateEscalation s now esc
    postIssueComment s1 repo issueNumber
      ("This issue has been marked as resolved by @" ++ commenter ++ ".")

/-- handleAddUserCommand (models.go lines 625-662). -/
def handleAddUserCommand (s : Store) (now : Time) (uid : String)
    (repo : String) (issueNumber : Nat) (username name : String) : StepResult :=
  match findUserByGitHubUsername s username with
  | some _ =>
    postIssueComment s repo issueNumber ("User @" ++ username ++ " already exists.")
  | none =>
    let u : OnCallUser :=
      { id := uid, githubUsername := username, name := name, email := "",
        isActive := true, createdAt := now, updatedAt := now }
    let s1 := createUser s uid now u
    postIssueComment s1 repo issueNumber
      ("User @" ++ username ++ " has been added to the on-call system.")

/-- handleAddRotationCommand (models.go lines 665-689). -/
def handleAddRotationCommand (s : Store) (now : Time) (rid : String)
    (repo : String) (issueNumber : Nat) (commenter name : String) : StepResult :=
  let rot : OnCallRotation :=
    { id := rid, name := name, description := "Rotation created by @" ++ commenter,
      repository := repo, isActive := true, createdAt := now, updatedAt := now }
  let s1 := createRotation s rid now rot
  postIssueComment s1 repo issueNumber
    ("On-call rotation \x27" ++ name ++ "\x27 has been created for this repository.")

/-- ASCII case folding used for the rotation-name comparison
(strings.EqualFold restricted to ASCII, which is what rotation names use). -/
def asciiLower (c : Char) : Char :=
  if 65 ≤ c.toNat ∧ c.toNat ≤ 90 then Char.ofNat (c.toNat + 32) else c

/-- handleAssignUserCommand (models.go lines 693-754). -/
def handleAssignUserCommand (s : Store) (now : Time) (aid : String)
    (repo : String) (issueNumber : Nat) (username rotationName : String) : StepResult :=
  match findUserByGitHubUsername s username with
  | none =>
    postIssueComment s repo issueNumber
      ("User @" ++ username ++ " does not exist. Please add the user first.")
  | some user =>
    let rotations := findRotationsByRepository s repo
    match rotations.find? (fun r => r.name.data.map asciiLower == rotationName.data.map asciiLower) with
    | none =>
      postIssueComment s repo issueNumber
        ("Rotation \x27" ++ rotationName ++ "\x27 does not exist. Please create it first.")
    | some rot =>
      let assignment : OnCallAssignment :=
        { id := aid, rotationID := rot.id, userID := user.id, startTime := now,
          endTime := 0, isCurrent := true, createdAt := now, updatedAt := now }
      let s1 := createAssignment s aid now assignment
      postIssueComment s1 repo issueNumber
        ("@" ++ username ++ " has been assigned to the \x27" ++ rot.name ++ "\x27 on-call rotation.")

/-- handleAckPRCommand (models.go lines 759-870), the PR mirror of
handleAckCommand. -/
def handleAckPRCommand (s : Store) (now : Time) (uid rid aid eid : String)
    (repo : String) (prNumber : Nat) (commenter : String) : StepResult :=
  match findEscalationByPR s repo prNumber with
  | none =>
    let su :=
      match findUserByGitHubUsername s commenter with
      | some u => (s, u)
      | none =>
        let u : OnCallUser :=
          { id := uid, githubUsername := commenter, name := commenter, email := "",
            isActive := true, createdAt := now, updatedAt := now }
        (createUser s uid now u, u)
    let s1 := su.1
    let user := su.2
    let sr :=
      match findRotationsByRepository s1 repo with
      | [] =>
        let rot : OnCallRotation :=
          { id := rid, name := repo ++ " Default Rotation",
            description := "Default rotation created automatically",
            repository := repo, isActive := true, createdAt := now, updatedAt := now }
        (createRotation s1 rid now rot, rot.id)
      | r :: _ => (s1, r.id)
    let s2 := sr.1
    let rotationID := sr.2
    let assignment : OnCallAssignment :=
      { id := aid, rotationID := rotationID, userID := user.id, startTime := now,
        endTime := 0, isCurrent := true, createdAt := now, updatedAt := now }
    let s3 := createAssignment s2 aid now assignment
    let esc : OnCallEscalation :=
      { id := eid, assignmentID := assignment.id, issueNumber := 0,
        prNumber := prNumber, repository := repo, status := .acknowledged,
        escalationTime := 0, resolutionTime := 0, createdAt := now, updatedAt := now }
    let s4 := createEscalation s3 eid now esc
    postPRComment s4 repo prNumber ("@" ++ commenter ++ " has acknowledged this pull request.")
  | some escalation =>
    if escalation.status = .pending ∨ escalation.status = .escalated then
      let esc := { escalation with status := .acknowledged, updatedAt := now }
      let s1 := updateEscalation s now esc
      postPRComment s1 repo prNumber ("@" ++ commenter ++ " has acknowledged this pull request.")
    else
      { store := s, notes := [], err := none }

/-- handleEscalatePRCommand (models.go lines 874-925); unlike the issue
variant it never attributes the new escalation to an assignment. -/
def handleEscalatePRCommand (s : Store) (now : Time) (eid : String)
    (repo : String) (prNumber : Nat) : StepResult :=
  match findEscalationByPR s repo prNumber with
  | none =>
    let esc : OnCallEscalation :=
      { id := eid, assignmentID := "", issueNumber := 0, prNumber := prNumber,
        repository := repo, status := .escalated, escalationTime := now,
        resolutionTime := 0, createdAt := now, updatedAt := now }
    let s1 := createEscalation s eid now esc
    postPRComment s1 repo prNumber "This pull request has been marked for escalation."
  | some escalation =>
    let esc := { escalation with status := .escalated, escalationTime := now, updatedAt := now }
    let s1 := updateEscalation s now esc
    postPRComment s1 repo prNumber "This pull request has been re-escalated."

/-- handleResolvePRCommand (models.go lines 928-958). -/
def handleResolvePRCommand (s : Store) (now : Time)
    (repo : String) (prNumber : Nat) (commenter : String) : StepResult :=
  match findEscalationByPR s repo prNumber with
  | none => { store := s, notes := [], err := none }
  | some escalation =>
    let esc := { escalation with status := .resolved, resolutionTime := now, updatedAt := now }
    let s1 := updateEscalation s now esc
    postPRComment s1 repo prNumber
      ("This pull request has been marked as resolved by @" ++ commenter ++ ".")

/-! ### Escalation sweeper (models.go lines 1011-1057) -/

/-- EscalationThreshold = 24 * time.Hour (models.go line 121), in seconds. -/
def EscalationThreshold : Time := 86400

/-- EscalationCheckInterval = 5 * time.Minute (models.go line 118), in seconds. -/
def EscalationCheckInterval : Time := 300

/-- One loop iteration of checkPendingEscalations: skip the escalation
when its deadline is still in the future, otherwise promote it to
escalated and post the automatic comment (for an issue when the issue
number is set, else for a PR when the PR number is set). Posting and
update failures are logged and do not stop the sweep. -/
def sweepOne (now : Time) (acc : Store × List Notification)
    (escalation : OnCallEscalation) : Store × List Notification :=
  if now < escalation.createdAt + EscalationThreshold then acc
  else
    let e := { escalation with status := .escalated, escalationTime := now, updatedAt := now }
    let s := updateEscalation acc.1 now e
    if e.issueNumber ≠ 0 then
      let r := postIssueComment s e.repository e.issueNumber
        "This issue has been automatically escalated due to lack of acknowledgment."
      (r.store, acc.2 ++ r.notes)
    else if e.prNumber ≠ 0 then
      let r := postPRComment s e.repository e.prNumber
        "This pull request has been automatically escalated due to lack of acknowledgment."
      (r.store, acc.2 ++ r.notes)
    else (s, acc.2)

/-- checkPendingEscalations (models.go lines 1011-1057): one sweeper tick
at time now. -/
def checkPendingEscalations (s : Store) (now : Time) : Store × List Notification :=
  (findEscalationsByStatus s .pending).foldl (sweepOne now) (s, [])

/-! ### Command recognition and event dispatch (models.go lines 124-132
and 285-316)

The command patterns are anchored regular expressions; they are embedded
as executable recognisers. The word class and the whitespace class are
the ASCII classes of the regexp engine. Whitespace runs separating
tokens are consumed greedily; for the two trailing captures the engine
can shift whitespace of the separating run into the capture, a nuance no
command here depends on. -/

/-- The regexp word class [0-9A-Za-z_]. -/
def isWordChar (c : Char) : Bool := c.isAlphanum || c == Char.ofNat 95

/-- The regexp whitespace class [\t\n\x0c\r ]. -/
def isSpaceClass (c : Char) : Bool :=
  c == Char.ofNat 32 || c == Char.ofNat 9 || c == Char.ofNat 10 ||
  c == Char.ofNat 12 || c == Char.ofNat 13

/-- The character class [a-zA-Z0-9_-] of the handle captures. -/
def isHandleChar (c : Char) : Bool :=
  c.isAlphanum || c == Char.ofNat 95 || c == Char.ofNat 45

/-- A word boundary sits here when the text ends or continues with a
character outside the word class. -/
def wordBoundaryAt : List Char → Bool
  | [] => true
  | c :: _ => !(isWordChar c)

/-- Matches an anchored keyword pattern such as /ack followed by a word
boundary (ackPattern, escalatePattern, resolvePattern, models.go
lines 126-128). -/
def matchesKeyword (kw body : String) : Bool :=
  kw.data.isPrefixOf body.data && wordBoundaryAt (body.data.drop kw.data.length)

/-- Consume a literal token, returning the remaining text. -/
def dropLiteral (kw : List Char) (l : List Char) : Option (List Char) :=
  if kw.isPrefixOf l then some (l.drop kw.length) else none

/-- Consume one-or-more whitespace-class characters greedily. -/
def dropSpaces1 (l : List Char) : Option (List Char) :=
  match l with
  | c :: rest => if isSpaceClass c then some (rest.dropWhile isSpaceClass) else none
  | [] => none

/-- A trailing dot-plus capture anchored at the end: any non-empty text
with no newline. -/
def restCapture (l : List Char) : Option String :=
  if l ≠ [] && !(l.contains (Char.ofNat 10)) then some ⟨l⟩ else none

/-- addUserPattern (models.go line 129). -/
def parseAddUser (body : String) : Option (String × String) :=
  match dropLiteral "/oncall".data body.data with
  | none => none
  | some l0 =>
    match dropSpaces1 l0 with
    | none => none
    | some l1 =>
      match dropLiteral "add".data l1 with
      | none => none
      | some l2 =>
        match dropSpaces1 l2 with
        | none => none
        | some l3 =>
          match dropLiteral "user".data l3 with
          | none => none
          | some l4 =>
            match dropSpaces1 l4 with
            | none => none
            | some l5 =>
              let handle := l5.takeWhile isHandleChar
              if handle = [] then none
              else
                match dropSpaces1 (l5.dropWhile isHandleChar) with
                | none => none
                | some l6 =>
                  match restCapture l6 with
                  | none => none
                  | some name => some (⟨handle⟩, name)

/-- addRotationPattern (models.go line 130). -/
def parseAddRotation (body : String) : Option String :=
  match dropLiteral "/oncall".data body.data with
  | none => none
  | some l0 =>
    match dropSpaces1 l0 with
    | none => none
    | some l1 =>
      match dropLiteral "add".data l1 with
      | none => none
      | some l2 =>
        match dropSpaces1 l2 with
        | none => none
        | some l3 =>
          match dropLiteral "rotation".data l3 with
          | none => none
          | some l4 =>
            match dropSpaces1 l4 with
            | none => none
            | some l5 => restCapture l5

/-- assignUserPattern (models.go line 131). -/
def parseAssignUser (body : String) : Option (String × String) :=
  match dropLiteral "/oncall".data body.data with
  | none => none
  | some l0 =>
    match dropSpaces1 l0 with
    | none => none
    | some l1 =>
      match dropLiteral "assign".data l1 with
      | none => none
      | some l2 =>
        match dropSpaces1 l2 with
        | none => none
        | some l3 =>
          let handle := l3.takeWhile isHandleChar
          if handle = [] then none
          else
            match dropSpaces1 (l3.dropWhile isHandleChar) with
            | none => none
            | some l4 =>
              match dropLiteral "to".data l4 with
              | none => none
              | some l5 =>
                match dropSpaces1 l5 with
                | none => none
                | some l6 =>
                  match restCapture l6 with
                  | none => none
                  | some rotationName => some (⟨handle⟩, rotationName)

/-- isRepositoryEnabled (models.go lines 372-385): an empty configuration
enables every repository. -/
def isRepositoryEnabled (enabledRepositories : List String) (repo : String) : Bool :=
  enabledRepositories.isEmpty || enabledRepositories.any (· == repo)

/-- The fields of a hosting-platform issue-comment event the module reads. -/
structure IssueCommentEvent where
  action : String
  repoFullName : String
  issueNumber : Nat
  commentBody : String
  commenterLogin : String
deriving DecidableEq, Repr

/-- handleIssueCommentEvent (models.go lines 285-316): ignore everything
but created actions on enabled repositories, then run the first matching
command of the pattern chain. -/
def handleIssueCommentEvent (enabledRepositories : List String) (s : Store)
    (now : Time) (uid rid aid eid : String) (ev : IssueCommentEvent) : StepResult :=
  if ev.action ≠ "created" then { store := s, notes := [], err := none }
  else if !(isRepositoryEnabled enabledRepositories ev.repoFullName) then
    { store := s, notes := [], err := none }
  else if matchesKeyword "/ack" ev.commentBody then
    handleAckCommand s now uid rid aid eid ev.repoFullName ev.issueNumber ev.commenterLogin
  else if matchesKeyword "/escalate" ev.commentBody then
    handleEscalateCommand s now eid ev.repoFullName ev.issueNumber
  else if matchesKeyword "/resolve" ev.commentBody then
    handleResolveCommand s now ev.repoFullName ev.issueNumber ev.commenterLogin
  else
    match parseAddUser ev.commentBody with
    | some un => handleAddUserCommand s now uid ev.repoFullName ev.issueNumber un.1 un.2
    | none =>
      match parseAddRotation ev.commentBody with
      | some name => handleAddRotationCommand s now rid ev.repoFullName ev.issueNumber ev.commenterLogin name
      | none =>
        match parseAssignUser ev.commentBody with
        | some ur => handleAssignUserCommand s now aid ev.repoFullName ev.issueNumber ur.1 ur.2
        | none => { store := s, notes := [], err := none }

/-! ### System operations (for the state-machine claims)

One step of the system: a command handler invocation or a sweeper tick.
The store effect of a step is the store component of the corresponding
handler result. -/

/-- One operation of the system. -/
inductive SysOp where
  | ack (now : Time) (uid rid aid eid repo : String) (issueNumber : Nat) (commenter : String)
  | ackPR (now : Time) (uid rid aid eid repo : String) (prNumber : Nat) (commenter : String)
  | escalate (now : Time) (eid repo : String) (issueNumber : Nat)
  | escalatePR (now : Time) (eid repo : String) (prNumber : Nat)
  | resolve (now : Time) (repo : String) (issueNumber : Nat) (commenter : String)
  | resolvePR (now : Time) (repo : String) (prNumber : Nat) (commenter : String)
  | addUser (now : Time) (uid repo : String) (issueNumber : Nat) (username name : String)
  | addRotation (now : Time) (rid repo : String) (issueNumber : Nat) (commenter name : String)
  | assignUser (now : Time) (aid repo : String) (issueNumber : Nat) (username rotationName : String)
  | sweep (now : Time)

/-- The persisted-store effect of one system operation. -/
def applySysOp (s : Store) : SysOp → Store
  | .ack now uid rid aid eid repo n c => (handleAckCommand s now uid rid aid eid repo n c).store
  | .ackPR now uid rid aid eid repo n c => (handleAckPRCommand s now uid rid aid eid repo n c).store
  | .escalate now eid repo n => (handleEscalateCommand s now eid repo n).store
  | .escalatePR now eid repo n => (handleEscalatePRCommand s now eid repo n).store
  | .resolve now repo n c => (handleResolveCommand s now repo n c).store
  | .resolvePR now repo n c => (handleResolvePRCommand s now repo n c).store
  | .addUser now uid repo n u name => (handleAddUserCommand s now uid repo n u name).store
  | .addRotation now rid repo n c name => (handleAddRotationCommand s now rid repo n c name).store
  | .assignUser now aid repo n u r => (handleAssignUserCommand s now aid repo n u r).store
  | .sweep now => (checkPendingEscalations s now).1

/-- The two escalate commands (issue and PR variant). -/
def SysOp.isEscalateCmd : SysOp → Bool
  | .escalate _ _ _ _ => true
  | .escalatePR _ _ _ _ => true
  | _ => false

/-- The fresh-identifier discipline of uuid.New: an identifier drawn for
a new escalation does not collide with a stored one. Only the two ack
commands can create an escalation here. -/
def escalationIdFresh (s : Store) : SysOp → Prop
  | .ack _ _ _ _ eid _ _ _ => findEscalationByID s eid = none
  | .ackPR _ _ _ _ eid _ _ _ => findEscalationByID s eid = none
  | _ => True

/-! ### Assignment-invariant operations (claim on the repository layer) -/

/-- The number of current assignments a rotation has. -/
def currentCount (assigns : List OnCallAssignment) (rotationID : String) : Nat :=
  assigns.countP (fun a => a.rotationID == rotationID && a.isCurrent)

/-- One assignment-store write: CreateAssignment or UpdateAssignment. -/
inductive AssignmentOp where
  | create (freshId : String) (now : Time) (a : OnCallAssignment)
  | update (now : Time) (a : OnCallAssignment)

/-- Apply one assignment write. -/
def applyAssignmentOp (s : Store) : AssignmentOp → Store
  | .create freshId now a => createAssignment s freshId now a
  | .update now a => updateAssignment s now a

/-- Apply a sequence of assignment writes in order. -/
def applyAssignmentOps (s : Store) (ops : List AssignmentOp) : Store :=
  ops.foldl applyAssignmentOp s

/-! ### SQLite assignment write (repository.go lines 382-423 and 607-635)

SQLiteOnCallRepository.CreateAssignment wraps the current-flag reset and
the INSERT of the target row in r.Transaction, but issues the reset
through r.db.Sqlx() — the non-transactional main connection — so the
reset takes effect independently of the transaction outcome; only the
INSERT performed through tx participates in the rollback. The INSERT
fails exactly on a duplicate primary key (id TEXT PRIMARY KEY in the
oncall_assignments schema). The Boolean result is the success of the
whole call. -/

/-- SQLiteOnCallRepository.CreateAssignment. -/
def sqliteCreateAssignment (s : Store) (freshId : String) (now : Time)
    (a : OnCallAssignment) : Store × Bool :=
  let a := assignmentWithDefaults freshId now a
  if a.isCurrent then
    let reset := clearOtherCurrent s.assignments a.rotationID a.id now
    if reset.any (fun x => x.id == a.id) then
      ({ s with assignments := reset }, false)
    else
      ({ s with assignments := reset ++ [a] }, true)
  else
    if s.assignments.any (fun x => x.id == a.id) then (s, false)
    else ({ s with assignments := s.assignments ++ [a] }, true)

/-! ### Module registry (module.go lines 96-120)

The registry is the name-keyed map of modules; a module exposes its name
through a function. -/

/-- DefaultRegistry.RegisterModule (module.go lines 96-107): refuse a
name that is already taken (an error is logged, nothing fatal happens),
else add the module under its name. -/
def RegisterModule {M : Type} (name : M → String) (reg : List (String × M)) (m : M) :
    List (String × M) :=
  if reg.any (fun p => p.1 == name m) then reg
  else reg ++ [(name m, m)]

/-- DefaultRegistry.GetModules (module.go lines 110-120) returns a copy
of the map; in the pure model the copy is the value itself. -/
def GetModules {M : Type} (reg : List (String × M)) : List (String × M) := reg

/-! ### SHA-256, HMAC and signature verification
(server.go lines 196-210; crypto/sha256, crypto/hmac, encoding/hex)

Bytes are naturals below 256, 32-bit words are naturals reduced
modulo 2^32. -/

/-- Reduce to a 32-bit word. -/
def u32 (n : Nat) : Nat := n % 4294967296

/-- Right rotation of a 32-bit word. -/
def rotr (n w : Nat) : Nat := u32 ((w >>> n) ||| (w <<< (32 - n)))

/-- SHA-256 big sigma 0. -/
def bigSigma0 (x : Nat) : Nat := rotr 2 x ^^^ rotr 13 x ^^^ rotr 22 x

/-- SHA-256 big sigma 1. -/
def bigSigma1 (x : Nat) : Nat := rotr 6 x ^^^ rotr 11 x ^^^ rotr 25 x

/-- SHA-256 small sigma 0. -/
def smallSigma0 (x : Nat) : Nat := rotr 7 x ^^^ rotr 18 x ^^^ (x >>> 3)

/-- SHA-256 small sigma 1. -/
def smallSigma1 (x : Nat) : Nat := rotr 17 x ^^^ rotr 19 x ^^^ (x >>> 10)

/-- The eight working variables of the compression function. -/
structure Sha256State where
  a : Nat
  b : Nat
  c : Nat
  d : Nat
  e : Nat
  f : Nat
  g : Nat
  h : Nat

/-- One compression round; the pair carries the schedule word and the
round constant. -/
def shaRound (st : Sha256State) (wk : Nat × Nat) : Sha256State :=
  let ch := (st.e &&& st.f) ^^^ ((st.e ^^^ 4294967295) &&& st.g)
  let maj := (st.a &&& st.b) ^^^ (st.a &&& st.c) ^^^ (st.b &&& st.c)
  let t1 := u32 (st.h + bigSigma1 st.e + ch + wk.1 + wk.2)
  let t2 := u32 (bigSigma0 st.a + maj)
  ⟨u32 (t1 + t2), st.a, st.b, st.c, u32 (st.d + t1), st.e, st.f, st.g⟩

/-- Big-endian 32-bit words of a byte list. -/
def wordsOfBytes : List Nat → List Nat
  | b0 :: b1 :: b2 :: b3 :: rest =>
    (((b0 * 256 + b1) * 256 + b2) * 256 + b3) :: wordsOfBytes rest
  | _ => []

/-- Extend a message schedule by the given number of words. -/
def extendSchedule : Nat → List Nat → List Nat
  | 0, acc => acc
  | k + 1, acc =>
    let i := acc.length
    extendSchedule k (acc ++
      [u32 (smallSigma1 (acc.getD (i - 2) 0) + acc.getD (i - 7) 0 +
            smallSigma0 (acc.getD (i - 15) 0) + acc.getD (i - 16) 0)])

/-- The SHA-256 round constants. -/
def shaK : List Nat :=
  [1116352408, 1899447441, 3049323471, 3921009573, 961987163, 1508970993,
   2453635748, 2870763221, 3624381080, 310598401, 607225278, 1426881987,
   1925078388, 2162078206, 2614888103, 3248222580, 3835390401, 4022224774,
   264347078, 604807628, 770255983, 1249150122, 1555081692, 1996064986,
   2554220882, 2821834349, 2952996808, 3210313671, 3336571891, 3584528711,
   113926993, 338241895, 666307205, 773529912, 1294757372, 1396182291,
   1695183700, 1986661051, 2177026350, 2456956037, 2730485921, 2820302411,
   3259730800, 3345764771, 3516065817, 3600352804, 4094571909, 275423344,
   430227734, 506948616, 659060556, 883997877, 958139571, 1322822218,
   1537002063, 1747873779, 1955562222, 2024104815, 2227730452, 2361852424,
   2428436474, 2756734187, 3204031479, 3329325298]

/-- The SHA-256 initial hash value. -/
def shaH0 : List Nat :=
  [1779033703, 3144134277, 1013904242, 2773480762,
   1359893119, 2600822924, 528734635, 1541459225]

/-- Compress one 64-byte block into the running hash (8 words). -/
def shaCompress (hs : List Nat) (block : List Nat) : List Nat :=
  let w := extendSchedule 48 (wordsOfBytes block)
  let st0 : Sha256State :=
    ⟨hs.getD 0 0, hs.getD 1 0, hs.getD 2 0, hs.getD 3 0,
     hs.getD 4 0, hs.getD 5 0, hs.getD 6 0, hs.getD 7 0⟩
  let st := (w.zip shaK).foldl shaRound st0
  [u32 (hs.getD 0 0 + st.a), u32 (hs.getD 1 0 + st.b), u32 (hs.getD 2 0 + st.c),
   u32 (hs.getD 3 0 + st.d), u32 (hs.getD 4 0 + st.e), u32 (hs.getD 5 0 + st.f),
   u32 (hs.getD 6 0 + st.g), u32 (hs.getD 7 0 + st.h)]

/-- Big-endian bytes of a 64-bit length. -/
def beBytes8 (n : Nat) : List Nat :=
  [(n >>> 56) % 256, (n >>> 48) % 256, (n >>> 40) % 256, (n >>> 32) % 256,
   (n >>> 24) % 256, (n >>> 16) % 256, (n >>> 8) % 256, n % 256]

/-- Big-endian bytes of a 32-bit word. -/
def wordBytes (w : Nat) : List Nat :=
  [(w >>> 24) % 256, (w >>> 16) % 256, (w >>> 8) % 256, w % 256]

/-- SHA-256 padding: a 0x80 byte, zeros up to 56 modulo 64, and the
bit length in 8 big-endian bytes. -/
def padMessage (msg : List Nat) : List Nat :=
  msg ++ 128 :: List.replicate ((119 - msg.length % 64) % 64) 0 ++ beBytes8 (msg.length * 8)

/-- Split into 64-byte blocks (fuelled structural recursion). -/
def chunks64Aux : Nat → List Nat → List (List Nat)
  | 0, _ => []
  | fuel + 1, l => if l.isEmpty then [] else l.take 64 :: chunks64Aux fuel (l.drop 64)

/-- Split into 64-byte blocks. -/
def chunks64 (l : List Nat) : List (List Nat) := chunks64Aux l.length l

/-- SHA-256 of a byte list. -/
def sha256 (msg : List Nat) : List Nat :=
  ((chunks64 (padMessage msg)).foldl shaCompress shaH0).foldr
    (fun w acc => wordBytes w ++ acc) []

/-- HMAC-SHA256 (crypto/hmac with a 64-byte block size). -/
def hmacSha256 (key msg : List Nat) : List Nat :=
  let key := if key.length > 64 then sha256 key else key
  let key := key ++ List.replicate (64 - key.length) 0
  let ipad := key.map (fun b => b ^^^ 54)
  let opad := key.map (fun b => b ^^^ 92)
  sha256 (opad ++ sha256 (ipad ++ msg))

/-- Lowercase hexadecimal digit, as hex.EncodeToString emits. -/
def hexDigitChar (n : Nat) : Char :=
  if n < 10 then Char.ofNat (48 + n) else Char.ofNat (87 + n)

/-- Uppercase hexadecimal digit. -/
def hexDigitCharUpper (n : Nat) : Char :=
  if n < 10 then Char.ofNat (48 + n) else Char.ofNat (55 + n)

/-- hex.EncodeToString: two lowercase digits per byte. -/
def hexEncode (bs : List Nat) : String :=
  ⟨bs.foldr (fun b acc => hexDigitChar (b / 16 % 16) :: hexDigitChar (b % 16) :: acc) []⟩

/-- The uppercase encoding of the same bytes. -/
def hexEncodeUpper (bs : List Nat) : String :=
  ⟨bs.foldr (fun b acc => hexDigitCharUpper (b / 16 % 16) :: hexDigitCharUpper (b % 16) :: acc) []⟩

/-- hex fromHexChar: digits, lowercase and uppercase letters are all
accepted. -/
def hexCharVal (c : Char) : Option Nat :=
  if 48 ≤ c.toNat ∧ c.toNat ≤ 57 then some (c.toNat - 48)
  else if 97 ≤ c.toNat ∧ c.toNat ≤ 102 then some (c.toNat - 87)
  else if 65 ≤ c.toNat ∧ c.toNat ≤ 70 then some (c.toNat - 55)
  else none

/-- hex.DecodeString over the character list: an odd length or an
invalid character is an error. -/
def hexDecodeChars : List Char → Option (List Nat)
  | [] => some []
  | [_] => none
  | c1 :: c2 :: rest =>
    match hexCharVal c1, hexCharVal c2, hexDecodeChars rest with
    | some hi, some lo, some bs => some ((16 * hi + lo) :: bs)
    | _, _, _ => none

/-- hex.DecodeString. -/
def hexDecode (s : String) : Option (List Nat) := hexDecodeChars s.data

/-- HTTPServer.verifySignature (server.go lines 196-210): require the
sha256= scheme, strip it, hex-decode the rest, and compare the decoded
bytes in constant time with the HMAC-SHA256 of the payload under the
shared secret. -/
def verifySignature (secret payload : List Nat) (sig : String) : Bool :=
  if "sha256=".data.isPrefixOf sig.data then
    match hexDecodeChars (sig.data.drop 7) with
    | some receivedMAC => receivedMAC == hmacSha256 secret payload
    | none => false
  else false

/-! ### Webhook handling (server.go lines 135-194)

The body is the read result (absent on a read failure); the event parser
stands for github.ParseWebHook on the event-type header; the handlers are
the registered modules, each returning an error or not. Dispatch is
fire-and-forget: handler outcomes are logged, the response is written
independently of them. -/

/-- HTTPServer.handleWebhook: the HTTP status code and the outcomes of
the dispatched handler invocations. -/
def handleWebhook {E : Type} (secret : List Nat) (body : Option (List Nat)) (sig : String)
    (parseEvent : List Nat → Option E)
    (handlers : List (E → List Nat → Option String)) : Nat × List (Option String) :=
  match body with
  | none => (400, [])
  | some payload =>
    if verifySignature secret payload sig then
      match parseEvent payload with
      | some ev => (200, handlers.map (fun handle => handle ev payload))
      | none => (400, [])
    else (401, [])

/-- Modelled from the spec (section 6, Webhook ingress): 200 on
successful verification and parse regardless of handler outcomes, 400 on
an unreadable body or an unparseable event, 401 on a signature
mismatch. -/
def specWebhookStatus {E : Type} (secret : List Nat) (body : Option (List Nat))
    (sig : String) (parseEvent : List Nat → Option E) : Nat :=
  match body with
  | none => 400
  | some payload =>
    if verifySignature secret payload sig = false then 401
    else if (parseEvent payload).isNone then 400
    else 200

/-- Substring test over character lists (used to state that a
notification body contains a fragment). -/
def listContainsSub (sub : List Char) : List Char → Bool
  | [] => sub.isEmpty
  | c :: t => sub.isPrefixOf (c :: t) || listContainsSub sub t

/-- The assignment store for the atomicity counterexample: rotation r1
has the current assignment b, rotation r2 the current assignment c. -/
def atomStore : Store :=
  { emptyStore with
    assignments :=
      [⟨"b", "r1", "uB", 10, 0, true, 10, 10⟩,
       ⟨"c", "r2", "uC", 10, 0, true, 10, 10⟩] }

/-- The atomicity counterexample write: mark a new current assignment for
rotation r1 whose id collides with the stored assignment c, so the
transactional INSERT fails on the duplicate primary key. -/
def atomNewAssignment : OnCallAssignment := ⟨"c", "r1", "uA", 50, 0, true, 50, 50⟩

/-- The secret of the signature counterexample, the bytes of mykey. -/
def sigSecret : List Nat := "mykey".data.map Char.toNat

/-- The payload of the signature counterexample, the bytes of payload. -/
def sigPayload : List Nat := "payload".data.map Char.toNat

/-- The escalation record built by the create path of handleAckCommand
(models.go lines 462-470): status acknowledged, linked to the assignment
created in the same invocation. -/
def ackNewEscalation (now : Time) (aid eid repo : String) (n : Nat) : OnCallEscalation :=
  { id := eid, assignmentID := aid, issueNumber := n, prNumber := 0, repository := repo,
    status := .acknowledged, escalationTime := 0, resolutionTime := 0,
    createdAt := now, updatedAt := now }

/-- The repository name splits into exactly an owner part and a name
part, the validity check of the comment-posting helpers. -/
def RepoSplitsInTwo (repo : String) : Prop :=
  ∃ o r, splitOnChar (Char.ofNat 47) repo.data = [o, r]

/-- The escalation record built by the create path of
handleEscalateCommand (models.go lines 514-523): status escalated with
the escalation timestamp set, not yet attributed to an assignment. -/
def escalateNewEscalation (now : Time) (eid repo : String) (n : Nat) : OnCallEscalation :=
  { id := eid, assignmentID := "", issueNumber := n, prNumber := 0, repository := repo,
    status := .escalated, escalationTime := now, resolutionTime := 0,
    createdAt := now, updatedAt := now }

/-- The escalation record built by the create path of handleAckPRCommand
(models.go lines 832-840). -/
def ackPRNewEscalation (now : Time) (aid eid repo : String) (n : Nat) : OnCallEscalation :=
  { id := eid, assignmentID := aid, issueNumber := 0, prNumber := n, repository := repo,
    status := .acknowledged, escalationTime := 0, resolutionTime := 0,
    createdAt := now, updatedAt := now }

/-- A concrete resolved escalation for acme/repo issue 7. -/
def resolvedEsc : OnCallEscalation :=
  ⟨"e9", "", 7, 0, "acme/repo", .resolved, 0, 50, 0, 0⟩

/-- A store holding only resolvedEsc. -/
def resolvedStore : Store := { emptyStore with escalations := [resolvedEsc] }

/-- A concrete pending escalation for acme/repo issue 5, created at
time 0 (sweep witness). -/
def sweepEsc : OnCallEscalation :=
  ⟨"e1", "", 5, 0, "acme/repo", .pending, 0, 0, 0, 0⟩

/-- A store holding only sweepEsc. -/
def sweepStore : Store := { emptyStore with escalations := [sweepEsc] }

/-!
## Theorems

First a collection of shared helper lemmas about the repository
operations, then one theorem (plus witnesses and counterexamples) per
claim.
-/

theorem postIssueComment_store (s : Store) (repo : String) (n : Nat) (b : String) :
    (postIssueComment s repo n b).store = s := by
  unfold postIssueComment
  split <;> rfl

theorem postPRComment_store (s : Store) (repo : String) (n : Nat) (b : String) :
    (postPRComment s repo n b).store = s := by
  unfold postPRComment
  split <;> rfl

theorem postIssueComment_valid (s : Store) (repo : String) (n : Nat) (b : String)
    (h : RepoSplitsInTwo repo) :
    postIssueComment s repo n b = ⟨s, [⟨repo, n, b⟩], none⟩ := by
  obtain ⟨o, r, hor⟩ := h
  unfold postIssueComment
  rw [hor]

theorem createUser_escalations (s : Store) (f : String) (now : Time) (u : OnCallUser) :
    (createUser s f now u).escalations = s.escalations := rfl

theorem createRotation_escalations (s : Store) (f : String) (now : Time) (r : OnCallRotation) :
    (createRotation s f now r).escalations = s.escalations := rfl

theorem createAssignment_escalations (s : Store) (f : String) (now : Time)
    (a : OnCallAssignment) : (createAssignment s f now a).escalations = s.escalations := rfl

theorem createEscalation_escalations (s : Store) (f : String) (now : Time)
    (e : OnCallEscalation) :
    (createEscalation s f now e).escalations =
      upsertBy (·.id) s.escalations (escalationWithDefaults f now e) := rfl

theorem findRotationsByRepository_createUser (s : Store) (f : String) (now : Time)
    (u : OnCallUser) (repo : String) :
    findRotationsByRepository (createUser s f now u) repo =
      findRotationsByRepository s repo := rfl

theorem escalationWithDefaults_ack (now : Time) (aid eid repo : String) (n : Nat) :
    escalationWithDefaults eid now (ackNewEscalation now aid eid repo n) =
      ackNewEscalation now aid eid repo n := by
  simp [escalationWithDefaults, ackNewEscalation]

theorem any_eq_false_of_find?_eq_none {α : Type} {p : α → Bool} {l : List α}
    (h : l.find? p = none) : l.any p = false :=
  List.any_eq_false.mpr (List.find?_eq_none.mp h)

theorem countP_eq_zero_of_find?_eq_none {α : Type} {p : α → Bool} {l : List α}
    (h : l.find? p = none) : l.countP p = 0 :=
  List.countP_eq_zero.mpr (List.find?_eq_none.mp h)

theorem upsertBy_fresh {α : Type} (key : α → String) (l : List α) (a : α)
    (h : l.any (fun x => key x == key a) = false) : upsertBy key l a = l ++ [a] := by
  simp [upsertBy, h]

theorem clearStep_id (rid i : String) (now : Time) (x : OnCallAssignment) :
    (clearStep rid i now x).id = x.id := by
  unfold clearStep
  split <;> rfl

theorem clearStep_rotationID (rid i : String) (now : Time) (x : OnCallAssignment) :
    (clearStep rid i now x).rotationID = x.rotationID := by
  unfold clearStep
  split <;> rfl

theorem uniqueKeys_congr_map {α : Type} (key : α → String) (f : α → α) (l : List α)
    (hf : ∀ x, key (f x) = key x) (hu : UniqueKeys key l) : UniqueKeys key (l.map f) := by
  intro k
  rw [List.countP_map]
  have he : List.countP ((fun x => key x == k) ∘ f) l =
      List.countP (fun x => key x == k) l :=
    List.countP_congr (fun x _ => by simp [Function.comp, hf x])
  rw [he]
  exact hu k

theorem uniqueKeys_upsertBy {α : Type} (key : α → String) (l : List α) (a : α)
    (hu : UniqueKeys key l) : UniqueKeys key (upsertBy key l a) := by
  unfold upsertBy
  split
  next =>
    refine uniqueKeys_congr_map key _ l ?_ hu
    intro x
    by_cases hk : (key x == key a) = true
    · rw [if_pos hk]
      exact (eq_of_beq hk).symm
    · rw [if_neg hk]
  next h =>
    have hfalse : (l.any fun x => key x == key a) = false := by
      revert h
      cases l.any fun x => key x == key a <;> simp
    intro k
    rw [List.countP_append, List.countP_singleton]
    by_cases hk : (key a == k) = true
    · have h0 : List.countP (fun x => key x == k) l = 0 := by
        refine List.countP_eq_zero.mpr ?_
        intro x hx hpx
        refine List.any_eq_false.mp hfalse x hx ?_
        rw [beq_iff_eq] at hpx hk ⊢
        rw [hpx, hk]
      rw [h0, if_pos hk]
    · rw [if_neg hk]
      have := hu k
      omega

theorem any_id_clear (l : List OnCallAssignment) (rid i : String) (now : Time)
    (k : String) :
    (clearOtherCurrent l rid i now).any (fun x => x.id == k) =
      l.any (fun x => x.id == k) := by
  unfold clearOtherCurrent
  rw [List.any_map]
  congr 1
  funext x
  simp [Function.comp, clearStep_id]

theorem bool_and_left {a b : Bool} (h : (a && b) = true) : a = true := by
  cases a
  · simp at h
  · rfl

theorem clearStep_imp_pcur (rid i : String) (now : Time) (R : String)
    (x : OnCallAssignment)
    (h : ((clearStep rid i now x).rotationID == R &&
      (clearStep rid i now x).isCurrent) = true) :
    (x.rotationID == R && x.isCurrent) = true := by
  revert h
  unfold clearStep
  by_cases hc : (x.rotationID == rid && x.id != i) = true
  · rw [if_pos hc]
    intro h
    simp at h
  · rw [if_neg hc]
    exact id

theorem clearStep_kills_current (a x : OnCallAssignment) (now : Time) (R : String)
    (hR : a.rotationID = R) (hid : ¬ (x.id == a.id) = true) :
    ¬ ((clearStep a.rotationID a.id now x).rotationID == R &&
      (clearStep a.rotationID a.id now x).isCurrent) = true := by
  intro h
  have hbne : (x.id != a.id) = true := by
    simp only [bne]
    revert hid
    cases x.id == a.id <;> simp
  unfold clearStep at h
  by_cases hc : (x.rotationID == a.rotationID && x.id != a.id) = true
  · rw [if_pos hc] at h
    simp at h
  · rw [if_neg hc] at h
    have hrot : (x.rotationID == a.rotationID) = false := by
      revert hc
      cases hq : x.rotationID == a.rotationID <;> simp [hbne]
    have hxR : x.rotationID = R := eq_of_beq (bool_and_left h)
    rw [hxR, hR] at hrot
    simp at hrot

theorem replace_imp_pcur_of_not_current (a y : OnCallAssignment) (R : String)
    (hnc : a.isCurrent = false)
    (h : ((if y.id == a.id then a else y).rotationID == R &&
      (if y.id == a.id then a else y).isCurrent) = true) :
    (y.rotationID == R && y.isCurrent) = true := by
  by_cases hid : (y.id == a.id) = true
  · rw [if_pos hid] at h
    rw [hnc] at h
    simp at h
  · rwa [if_neg hid] at h

theorem replaceClear_imp_id (a x : OnCallAssignment) (now : Time) (R : String)
    (hR : a.rotationID = R)
    (h : ((if (clearStep a.rotationID a.id now x).id == a.id then a
        else clearStep a.rotationID a.id now x).rotationID == R &&
      (if (clearStep a.rotationID a.id now x).id == a.id then a
        else clearStep a.rotationID a.id now x).isCurrent) = true) :
    (x.id == a.id) = true := by
  by_cases hid : (x.id == a.id) = true
  · exact hid
  · exfalso
    have hyid : ¬ ((clearStep a.rotationID a.id now x).id == a.id) = true := by
      rw [clearStep_id]
      revert hid
      cases x.id == a.id <;> simp
    rw [if_neg hyid] at h
    exact clearStep_kills_current a x now R hR hid h

theorem replaceClear_imp_pcur (a x : OnCallAssignment) (now : Time) (R : String)
    (hR : ¬ a.rotationID = R)
    (h : ((if (clearStep a.rotationID a.id now x).id == a.id then a
        else clearStep a.rotationID a.id now x).rotationID == R &&
      (if (clearStep a.rotationID a.id now x).id == a.id then a
        else clearStep a.rotationID a.id now x).isCurrent) = true) :
    (x.rotationID == R && x.isCurrent) = true := by
  by_cases hyid : ((clearStep a.rotationID a.id now x).id == a.id) = true
  · rw [if_pos hyid] at h
    have haR : a.rotationID = R := eq_of_beq (bool_and_left h)
    exact absurd haR hR
  · rw [if_neg hyid] at h
    exact clearStep_imp_pcur a.rotationID a.id now R x h

theorem replaceById_current_count_le (l : List OnCallAssignment) (a : OnCallAssignment)
    (now : Time)
    (hu : UniqueKeys (fun x : OnCallAssignment => x.id) l)
    (hinv : ∀ R, l.countP (fun y => y.rotationID == R && y.isCurrent) ≤ 1)
    (R : String) :
    ((clearOtherCurrent l a.rotationID a.id now).map
      (fun x => if x.id == a.id then a else x)).countP
      (fun y => y.rotationID == R && y.isCurrent) ≤ 1 := by
  unfold clearOtherCurrent
  rw [List.map_map, List.countP_map]
  by_cases hR : a.rotationID = R
  · refine le_trans (List.countP_mono_left ?_) (hu a.id)
    intro x _ h
    exact replaceClear_imp_id a x now R hR h
  · refine le_trans (List.countP_mono_left ?_) (hinv R)
    intro x _ h
    exact replaceClear_imp_pcur a x now R hR h

theorem appendClear_current_count_le (l : List OnCallAssignment) (a : OnCallAssignment)
    (now : Time)
    (hinv : ∀ R, l.countP (fun y => y.rotationID == R && y.isCurrent) ≤ 1)
    (hfresh : l.any (fun x => x.id == a.id) = false) (R : String) :
    (clearOtherCurrent l a.rotationID a.id now ++ [a]).countP
      (fun y => y.rotationID == R && y.isCurrent) ≤ 1 := by
  rw [List.countP_append, List.countP_singleton]
  unfold clearOtherCurrent
  rw [List.countP_map]
  by_cases hR : a.rotationID = R
  · have h0 : l.countP ((fun y => y.rotationID == R && y.isCurrent) ∘
        clearStep a.rotationID a.id now) = 0 := by
      refine List.countP_eq_zero.mpr ?_
      intro x hx h
      have hid : ¬ (x.id == a.id) = true := by
        intro hid
        have := List.any_eq_false.mp hfresh x hx
        exact this hid
      exact clearStep_kills_current a x now R hR hid h
    rw [h0]
    split <;> omega
  · have hPa : ((a.rotationID == R && a.isCurrent) = true) → False := by
      intro h
      exact hR (eq_of_beq (bool_and_left h))
    rw [if_neg hPa]
    have hb : List.countP ((fun y => y.rotationID == R && y.isCurrent) ∘
        clearStep a.rotationID a.id now) l ≤ 1 :=
      le_trans
        (List.countP_mono_left (fun x _ h => clearStep_imp_pcur a.rotationID a.id now R x h))
        (hinv R)
    omega

theorem createAssignment_uniqueKeys (s : Store) (f : String) (now : Time)
    (a : OnCallAssignment)
    (hu : UniqueKeys (fun x : OnCallAssignment => x.id) s.assignments) :
    UniqueKeys (fun x : OnCallAssignment => x.id)
      (createAssignment s f now a).assignments := by
  show UniqueKeys _ (upsertBy _ _ _)
  refine uniqueKeys_upsertBy _ _ _ ?_
  by_cases hc : (assignmentWithDefaults f now a).isCurrent = true
  · rw [if_pos hc]
    exact uniqueKeys_congr_map _ _ _ (fun x => clearStep_id _ _ _ x) hu
  · rw [if_neg hc]
    exact hu

theorem createAssignment_currentCount_le (s : Store) (f : String) (now : Time)
    (a : OnCallAssignment)
    (hu : UniqueKeys (fun x : OnCallAssignment => x.id) s.assignments)
    (hinv : ∀ R, currentCount s.assignments R ≤ 1) (R : String) :
    currentCount (createAssignment s f now a).assignments R ≤ 1 := by
  unfold createAssignment currentCount
  dsimp only
  generalize assignmentWithDefaults f now a = b
  unfold upsertBy
  by_cases hcur : b.isCurrent = true
  · rw [if_pos hcur]
    split
    next =>
      exact replaceById_current_count_le s.assignments b now hu hinv R
    next hAny =>
      have hAny2 : (s.assignments.any fun x => x.id == b.id) = false := by
        rw [← any_id_clear s.assignments b.rotationID b.id now b.id]
        exact Bool.eq_false_iff.mpr hAny
      exact appendClear_current_count_le s.assignments b now hinv hAny2 R
  · rw [if_neg hcur]
    have hnc : b.isCurrent = false := by
      revert hcur
      cases b.isCurrent <;> simp
    split
    next =>
      rw [List.countP_map]
      refine le_trans (List.countP_mono_left ?_) (hinv R)
      intro x _ h
      exact replace_imp_pcur_of_not_current b x R hnc h
    next =>
      rw [List.countP_append, List.countP_singleton]
      have hPa : ((b.rotationID == R && b.isCurrent) = true) → False := by
        rw [hnc]
        simp
      rw [if_neg hPa]
      have hle : List.countP (fun y => y.rotationID == R && y.isCurrent)
          s.assignments ≤ 1 := hinv R
      omega

theorem updateAssignment_uniqueKeys (s : Store) (now : Time) (a : OnCallAssignment)
    (hu : UniqueKeys (fun x : OnCallAssignment => x.id) s.assignments) :
    UniqueKeys (fun x : OnCallAssignment => x.id)
      (updateAssignment s now a).assignments := by
  unfold updateAssignment
  split
  next =>
    dsimp only
    refine uniqueKeys_congr_map _ _ _ ?_ ?_
    · intro x
      by_cases hk : (x.id == a.id) = true
      · rw [if_pos hk]
        exact (eq_of_beq hk).symm
      · rw [if_neg hk]
    · by_cases hc : ({ a with updatedAt := now } : OnCallAssignment).isCurrent = true
      · rw [if_pos hc]
        exact uniqueKeys_congr_map _ _ _ (fun x => clearStep_id _ _ _ x) hu
      · rw [if_neg hc]
        exact hu
  next =>
    exact hu

theorem updateAssignment_currentCount_le (s : Store) (now : Time) (a : OnCallAssignment)
    (hu : UniqueKeys (fun x : OnCallAssignment => x.id) s.assignments)
    (hinv : ∀ R, currentCount s.assignments R ≤ 1) (R : String) :
    currentCount (updateAssignment s now a).assignments R ≤ 1 := by
  unfold updateAssignment currentCount
  split
  next =>
    dsimp only
    by_cases hcur : a.isCurrent = true
    · rw [if_pos hcur]
      exact replaceById_current_count_le s.assignments
        { a with updatedAt := now } now hu hinv R
    · rw [if_neg hcur]
      have hnc : ({ a with updatedAt := now } : OnCallAssignment).isCurrent = false := by
        revert hcur
        cases a.isCurrent <;> simp
      rw [List.countP_map]
      refine le_trans (List.countP_mono_left ?_) (hinv R)
      intro x _ h
      exact replace_imp_pcur_of_not_current { a with updatedAt := now } x R hnc h
  next =>
    exact hinv R

theorem applyAssignmentOp_preserves (s : Store) (op : AssignmentOp)
    (hu : UniqueKeys (fun x : OnCallAssignment => x.id) s.assignments)
    (hinv : ∀ R, currentCount s.assignments R ≤ 1) :
    UniqueKeys (fun x : OnCallAssignment => x.id) (applyAssignmentOp s op).assignments ∧
    ∀ R, currentCount (applyAssignmentOp s op).assignments R ≤ 1 := by
  cases op with
  | create f now a =>
    exact ⟨createAssignment_uniqueKeys s f now a hu,
      fun R => createAssignment_currentCount_le s f now a hu hinv R⟩
  | update now a =>
    exact ⟨updateAssignment_uniqueKeys s now a hu,
      fun R => updateAssignment_currentCount_le s now a hu hinv R⟩

theorem applyAssignmentOps_preserves (ops : List AssignmentOp) :
    ∀ s : Store, UniqueKeys (fun x : OnCallAssignment => x.id) s.assignments →
      (∀ R, currentCount s.assignments R ≤ 1) →
      UniqueKeys (fun x : OnCallAssignment => x.id)
        (applyAssignmentOps s ops).assignments ∧
      ∀ R, currentCount (applyAssignmentOps s ops).assignments R ≤ 1 := by
  induction ops with
  | nil => exact fun s hu hinv => ⟨hu, hinv⟩
  | cons op ops ih =>
    intro s hu hinv
    have hstep := applyAssignmentOp_preserves s op hu hinv
    exact ih (applyAssignmentOp s op) hstep.1 hstep.2

theorem findRotationsByRepository_createEscalation (s : Store) (f : String) (now : Time)
    (e : OnCallEscalation) (repo : String) :
    findRotationsByRepository (createEscalation s f now e) repo =
      findRotationsByRepository s repo := rfl

theorem findCurrentAssignmentByRotation_createEscalation (s : Store) (f : String)
    (now : Time) (e : OnCallEscalation) (rid : String) :
    findCurrentAssignmentByRotation (createEscalation s f now e) rid =
      findCurrentAssignmentByRotation s rid := rfl

theorem escalationWithDefaults_escalate (now : Time) (eid repo : String) (n : Nat) :
    escalationWithDefaults eid now (escalateNewEscalation now eid repo n) =
      escalateNewEscalation now eid repo n := by
  simp [escalationWithDefaults, escalateNewEscalation]

theorem handleEscalate_none_fallback_result (s : Store) (now : Time) (eid repo : String)
    (n : Nat)
    (h0 : findEscalationByIssue s repo n = none)
    (hsplit : RepoSplitsInTwo repo)
    (hfb : findRotationsByRepository s repo = [] ∨
      ∃ r rest, findRotationsByRepository s repo = r :: rest ∧
        findCurrentAssignmentByRotation s r.id = none) :
    handleEscalateCommand s now eid repo n =
      ⟨createEscalation s eid now (escalateNewEscalation now eid repo n),
       [⟨repo, n, "This issue has been marked for escalation."⟩], none⟩ := by
  unfold handleEscalateCommand
  rw [h0]
  dsimp only
  rcases hfb with hnil | ⟨r, rest, hcons, hnone⟩
  · simp only [findRotationsByRepository_createEscalation]
    rw [hnil]
    dsimp only
    rw [postIssueComment_valid _ _ _ _ hsplit]
    rfl
  · simp only [findRotationsByRepository_createEscalation]
    rw [hcons]
    dsimp only
    simp only [findCurrentAssignmentByRotation_createEscalation]
    rw [hnone]
    dsimp only
    rw [postIssueComment_valid _ _ _ _ hsplit]
    rfl

theorem handleAck_none_store_escalations (s : Store) (now : Time)
    (uid rid aid eid repo : String) (n : Nat) (commenter : String)
    (h0 : findEscalationByIssue s repo n = none) :
    (handleAckCommand s now uid rid aid eid repo n commenter).store.escalations =
      upsertBy (·.id) s.escalations
        (escalationWithDefaults eid now (ackNewEscalation now aid eid repo n)) := by
  unfold handleAckCommand
  rw [h0]
  dsimp only
  cases hu : findUserByGitHubUsername s commenter with
  | none =>
    dsimp only
    rw [findRotationsByRepository_createUser]
    cases hr : findRotationsByRepository s repo with
    | nil =>
      rw [postIssueComment_store]
      rfl
    | cons r rest =>
      rw [postIssueComment_store]
      rfl
  | some u =>
    dsimp only
    cases hr : findRotationsByRepository s repo with
    | nil =>
      rw [postIssueComment_store]
      rfl
    | cons r rest =>
      rw [postIssueComment_store]
      rfl

/-- Claim C3: starting from an empty store, handling an issue-comment
event whose body is /ack by commenter alice on repository acme/repo
issue 42 results in a User with handle alice, exactly one Rotation named
acme/repo Default Rotation, one current Assignment linking alice to that
rotation, one acknowledged Escalation for (acme/repo, 42), and exactly
one posted notification whose body contains @alice. -/
theorem C3_ack_scenario :
    (handleIssueCommentEvent [] emptyStore 100 "u1" "r1" "a1" "e1"
        { action := "created", repoFullName := "acme/repo", issueNumber := 42,
          commentBody := "/ack", commenterLogin := "alice" }).store.users.any
        (fun u => u.githubUsername == "alice") = true ∧
    ((handleIssueCommentEvent [] emptyStore 100 "u1" "r1" "a1" "e1"
        { action := "created", repoFullName := "acme/repo", issueNumber := 42,
          commentBody := "/ack", commenterLogin := "alice" }).store.rotations.filter
        (fun r => r.name == "acme/repo Default Rotation")).length = 1 ∧
    ((handleIssueCommentEvent [] emptyStore 100 "u1" "r1" "a1" "e1"
        { action := "created", repoFullName := "acme/repo", issueNumber := 42,
          commentBody := "/ack", commenterLogin := "alice" }).store.assignments.filter
        (fun a => a.isCurrent &&
          (handleIssueCommentEvent [] emptyStore 100 "u1" "r1" "a1" "e1"
            { action := "created", repoFullName := "acme/repo", issueNumber := 42,
              commentBody := "/ack", commenterLogin := "alice" }).store.rotations.any
            (fun r => r.name == "acme/repo Default Rotation" && r.id == a.rotationID) &&
          (handleIssueCommentEvent [] emptyStore 100 "u1" "r1" "a1" "e1"
            { action := "created", repoFullName := "acme/repo", issueNumber := 42,
              commentBody := "/ack", commenterLogin := "alice" }).store.users.any
            (fun u => u.githubUsername == "alice" && u.id == a.userID))).length = 1 ∧
    ((handleIssueCommentEvent [] emptyStore 100 "u1" "r1" "a1" "e1"
        { action := "created", repoFullName := "acme/repo", issueNumber := 42,
          commentBody := "/ack", commenterLogin := "alice" }).store.escalations.filter
        (fun e => e.repository == "acme/repo" && e.issueNumber == 42 &&
          e.status == EscalationStatus.acknowledged)).length = 1 ∧
    ((handleIssueCommentEvent [] emptyStore 100 "u1" "r1" "a1" "e1"
        { action := "created", repoFullName := "acme/repo", issueNumber := 42,
          commentBody := "/ack", commenterLogin := "alice" }).store.escalations.length = 1) ∧
    (handleIssueCommentEvent [] emptyStore 100 "u1" "r1" "a1" "e1"
        { action := "created", repoFullName := "acme/repo", issueNumber := 42,
          commentBody := "/ack", commenterLogin := "alice" }).notes.length = 1 ∧
    ((handleIssueCommentEvent [] emptyStore 100 "u1" "r1" "a1" "e1"
        { action := "created", repoFullName := "acme/repo", issueNumber := 42,
          commentBody := "/ack", commenterLogin := "alice" }).notes.all
        (fun note => listContainsSub "@alice".data note.body.data)) = true := by
  decide

/-- Claim C2 (code bug): the reset of the other current assignments is
executed on the main connection, outside the transaction, so when the
transactional INSERT of the target assignment fails (duplicate primary
key), the call reports failure and the target row is absent, yet the other
assignment of the rotation has lost its current flag — the two steps are
not atomic. -/
theorem C2_reset_outlives_rollback :
    (sqliteCreateAssignment atomStore "" 50 atomNewAssignment).2 = false ∧
    ((sqliteCreateAssignment atomStore "" 50 atomNewAssignment).1.assignments.find?
        (fun x => x.id == "b")).map (fun x => x.isCurrent) = some false ∧
    (atomStore.assignments.find? (fun x => x.id == "b")).map (fun x => x.isCurrent) =
      some true ∧
    (sqliteCreateAssignment atomStore "" 50 atomNewAssignment).1.assignments.all
        (fun x => !(x.id == "c" && x.rotationID == "r1")) = true := by
  decide

/-- Claim C8: registering a module under a name that is already present
leaves the name-to-handler mapping unchanged, and registering under a
fresh name adds exactly that one entry. -/
theorem C8_register_semantics {M : Type} (name : M → String)
    (reg : List (String × M)) (m : M) :
    (reg.any (fun p => p.1 == name m) = true →
      RegisterModule name reg m = reg ∧
      GetModules (RegisterModule name reg m) = GetModules reg) ∧
    (reg.any (fun p => p.1 == name m) = false →
      RegisterModule name reg m = reg ++ [(name m, m)]) := by
  constructor <;> intro h <;> simp [RegisterModule, GetModules, h]

/-- Witness for C8 at concrete registries: a duplicate registration is
refused, a fresh registration adds its entry. -/
theorem C8_register_semantics_witness :
    RegisterModule (fun _ : Nat => "oncall") [("oncall", 99)] 1 = [("oncall", 99)] ∧
    RegisterModule (fun _ : Nat => "oncall") ([] : List (String × Nat)) 1 = [("oncall", 1)] :=
  ⟨((C8_register_semantics (fun _ : Nat => "oncall") [("oncall", 99)] 1).1 (by decide)).1,
   (C8_register_semantics (fun _ : Nat => "oncall") [] 1).2 (by decide)⟩

/-- Claim C7: the webhook status code equals the spec status (400 on an
unreadable body, 401 on a signature mismatch, 400 on an unparseable
event, 200 once verification and parsing succeed) and is unaffected by
the registered handlers and their outcomes. -/
theorem C7_status_handler_independent {E : Type} (secret : List Nat)
    (body : Option (List Nat)) (sig : String) (parseEvent : List Nat → Option E)
    (handlers handlersB : List (E → List Nat → Option String)) :
    (handleWebhook secret body sig parseEvent handlers).1 =
      specWebhookStatus secret body sig parseEvent ∧
    (handleWebhook secret body sig parseEvent handlers).1 =
      (handleWebhook secret body sig parseEvent handlersB).1 := by
  cases body with
  | none => exact ⟨rfl, rfl⟩
  | some payload =>
    by_cases hv : verifySignature secret payload sig = true
    · cases hp : parseEvent payload <;>
        simp [handleWebhook, specWebhookStatus, hv, hp]
    · have hv2 : verifySignature secret payload sig = false := by
        simpa using hv
      simp [handleWebhook, specWebhookStatus, hv2]

theorem postPRComment_valid (s : Store) (repo : String) (n : Nat) (b : String)
    (h : RepoSplitsInTwo repo) :
    postPRComment s repo n b = ⟨s, [⟨repo, n, b⟩], none⟩ := by
  obtain ⟨o, r, hor⟩ := h
  unfold postPRComment
  rw [hor]

theorem uniqueKeys_singleton {α : Type} (key : α → String) (a : α) :
    UniqueKeys key [a] := by
  intro k
  rw [List.countP_singleton]
  split <;> omega

theorem eq_of_mem_countP_le_one {α : Type} {p : α → Bool} :
    ∀ {l : List α}, l.countP p ≤ 1 → ∀ {x y : α}, x ∈ l → y ∈ l →
      p x = true → p y = true → x = y := by
  intro l
  induction l with
  | nil =>
    intro _ x y hx
    cases hx
  | cons a t ih =>
    intro hc x y hx hy hpx hpy
    rw [List.countP_cons] at hc
    cases List.mem_cons.mp hx with
    | inl hxa =>
      cases List.mem_cons.mp hy with
      | inl hya => rw [hxa, hya]
      | inr hyt =>
        exfalso
        rw [hxa] at hpx
        rw [if_pos hpx] at hc
        have h0 : t.countP p = 0 := by omega
        exact (List.countP_eq_zero.mp h0 y hyt) hpy
    | inr hxt =>
      cases List.mem_cons.mp hy with
      | inl hya =>
        exfalso
        rw [hya] at hpy
        rw [if_pos hpy] at hc
        have h0 : t.countP p = 0 := by omega
        exact (List.countP_eq_zero.mp h0 x hxt) hpx
      | inr hyt =>
        refine ih ?_ hxt hyt hpx hpy
        split at hc <;> omega

theorem any_of_find?_eq_some {α : Type} {p : α → Bool} {l : List α} {x : α}
    (h : l.find? p = some x) : l.any p = true :=
  List.any_eq_true.mpr ⟨x, List.mem_of_find?_eq_some h, List.find?_some h⟩

theorem find?_replaceById_self (l : List OnCallEscalation) (y2 : OnCallEscalation)
    (hpres : (l.any fun y => y.id == y2.id) = true) :
    (l.map fun y => if y.id == y2.id then y2 else y).find? (fun y => y.id == y2.id) =
      some y2 := by
  induction l with
  | nil => simp at hpres
  | cons a t ih =>
    rw [List.map_cons]
    by_cases ha : (a.id == y2.id) = true
    · rw [if_pos ha]
      exact List.find?_cons_of_pos _ (by simp)
    · rw [if_neg ha]
      rw [@List.find?_cons_of_neg _ (fun y => y.id == y2.id) a _ ha]
      refine ih ?_
      have ha2 : (a.id == y2.id) = false := Bool.eq_false_iff.mpr ha
      simpa [List.any_cons, ha2] using hpres

theorem find?_replaceById_ne (l : List OnCallEscalation) (y2 : OnCallEscalation)
    (id : String) (hne : ¬ y2.id = id) :
    (l.map fun y => if y.id == y2.id then y2 else y).find? (fun y => y.id == id) =
      l.find? (fun y => y.id == id) := by
  induction l with
  | nil => rfl
  | cons a t ih =>
    rw [List.map_cons]
    by_cases ha : (a.id == y2.id) = true
    · rw [if_pos ha]
      have h1 : ¬ (y2.id == id) = true := by
        intro hcon
        exact hne (eq_of_beq hcon)
      have h2 : ¬ (a.id == id) = true := by
        intro hcon
        refine hne ?_
        rw [← eq_of_beq ha]
        exact eq_of_beq hcon
      rw [@List.find?_cons_of_neg _ (fun y => y.id == id) y2 _ h1,
          @List.find?_cons_of_neg _ (fun y => y.id == id) a _ h2]
      exact ih
    · rw [if_neg ha]
      by_cases hpa : (a.id == id) = true
      · rw [@List.find?_cons_of_pos _ (fun y => y.id == id) a _ hpa,
            @List.find?_cons_of_pos _ (fun y => y.id == id) a _ hpa]
      · rw [@List.find?_cons_of_neg _ (fun y => y.id == id) a _ hpa,
            @List.find?_cons_of_neg _ (fun y => y.id == id) a _ hpa]
        exact ih

theorem findEscalationByID_updateEscalation_ne (s : Store) (now : Time)
    (x : OnCallEscalation) (id : String) (hne : ¬ x.id = id) :
    findEscalationByID (updateEscalation s now x) id = findEscalationByID s id := by
  unfold updateEscalation
  split
  next =>
    exact find?_replaceById_ne s.escalations { x with updatedAt := now } id hne
  next => rfl

theorem findEscalationByID_updateEscalation_present (s : Store) (now : Time)
    (x : OnCallEscalation)
    (hpres : (s.escalations.any fun y => y.id == x.id) = true) :
    findEscalationByID (updateEscalation s now x) x.id =
      some { x with updatedAt := now } := by
  unfold updateEscalation
  rw [if_pos hpres]
  exact find?_replaceById_self s.escalations { x with updatedAt := now } hpres

theorem sweepOne_lookup_preserved (now : Time) (acc : Store × List Notification)
    (x : OnCallEscalation) (id : String) (hne : ¬ x.id = id) :
    findEscalationByID (sweepOne now acc x).1 id = findEscalationByID acc.1 id := by
  unfold sweepOne
  split
  next => rfl
  next =>
    dsimp only
    split
    next =>
      rw [postIssueComment_store]
      exact findEscalationByID_updateEscalation_ne acc.1 now _ id hne
    next =>
      split
      next =>
        rw [postPRComment_store]
        exact findEscalationByID_updateEscalation_ne acc.1 now _ id hne
      next =>
        exact findEscalationByID_updateEscalation_ne acc.1 now _ id hne

theorem foldl_sweep_lookup_preserved (now : Time) (id : String) :
    ∀ Q : List OnCallEscalation, (∀ x ∈ Q, ¬ x.id = id) →
      ∀ acc, findEscalationByID ((Q.foldl (sweepOne now) acc).1) id =
        findEscalationByID acc.1 id := by
  intro Q
  induction Q with
  | nil =>
    intro _ acc
    rfl
  | cons x t ih =>
    intro hQ acc
    rw [List.foldl_cons, ih (fun y hy => hQ y (List.mem_cons_of_mem x hy)),
        sweepOne_lookup_preserved now acc x id (hQ x (List.mem_cons_self x t))]

theorem sweepOne_notes_mono (now : Time) (acc : Store × List Notification)
    (x : OnCallEscalation) (note : Notification) (h : note ∈ acc.2) :
    note ∈ (sweepOne now acc x).2 := by
  unfold sweepOne
  split
  next => exact h
  next =>
    dsimp only
    split
    next => exact List.mem_append_left _ h
    next =>
      split
      next => exact List.mem_append_left _ h
      next => exact h

theorem foldl_sweep_notes_mono (now : Time) (note : Notification) :
    ∀ Q : List OnCallEscalation, ∀ acc, note ∈ acc.2 →
      note ∈ (Q.foldl (sweepOne now) acc).2 := by
  intro Q
  induction Q with
  | nil =>
    intro acc h
    exact h
  | cons x t ih =>
    intro acc h
    rw [List.foldl_cons]
    exact ih _ (sweepOne_notes_mono now acc x note h)

theorem escalationWithDefaults_ackPR (now : Time) (aid eid repo : String) (n : Nat) :
    escalationWithDefaults eid now (ackPRNewEscalation now aid eid repo n) =
      ackPRNewEscalation now aid eid repo n := by
  simp [escalationWithDefaults, ackPRNewEscalation]

theorem handleAckPR_none_store_escalations (s : Store) (now : Time)
    (uid rid aid eid repo : String) (n : Nat) (commenter : String)
    (h0 : findEscalationByPR s repo n = none) :
    (handleAckPRCommand s now uid rid aid eid repo n commenter).store.escalations =
      upsertBy (·.id) s.escalations
        (escalationWithDefaults eid now (ackPRNewEscalation now aid eid repo n)) := by
  unfold handleAckPRCommand
  rw [h0]
  dsimp only
  cases hu : findUserByGitHubUsername s commenter with
  | none =>
    dsimp only
    rw [findRotationsByRepository_createUser]
    cases hr : findRotationsByRepository s repo with
    | nil =>
      rw [postPRComment_store]
      rfl
    | cons r rest =>
      rw [postPRComment_store]
      rfl
  | some u =>
    dsimp only
    cases hr : findRotationsByRepository s repo with
    | nil =>
      rw [postPRComment_store]
      rfl
    | cons r rest =>
      rw [postPRComment_store]
      rfl

theorem resolved_ne_found (s : Store)
    (hu : UniqueKeys (fun x : OnCallEscalation => x.id) s.escalations)
    {e esc : OnCallEscalation} (hmem_e : e ∈ s.escalations)
    (hmem_esc : esc ∈ s.escalations)
    (hres : e.status = EscalationStatus.resolved)
    (hstat : esc.status = EscalationStatus.pending ∨
      esc.status = EscalationStatus.escalated) :
    ¬ esc.id = e.id := by
  intro heq
  have hxe : esc = e :=
    eq_of_mem_countP_le_one (hu e.id) hmem_esc hmem_e (by simp [heq]) (by simp)
  cases hstat with
  | inl h =>
    rw [hxe, hres] at h
    cases h
  | inr h =>
    rw [hxe, hres] at h
    cases h

theorem handleAck_resolved_preserved (s : Store) (now : Time)
    (uid rid aid eid repo : String) (n : Nat) (commenter : String)
    (hu : UniqueKeys (fun x : OnCallEscalation => x.id) s.escalations)
    (hfresh : findEscalationByID s eid = none)
    (id : String) (e : OnCallEscalation)
    (hfind : findEscalationByID s id = some e)
    (hres : e.status = EscalationStatus.resolved) :
    ∃ e2, findEscalationByID
        (handleAckCommand s now uid rid aid eid repo n commenter).store id = some e2 ∧
      e2.status = EscalationStatus.resolved := by
  have hfind2 : s.escalations.find? (fun y => y.id == id) = some e := hfind
  cases h0 : findEscalationByIssue s repo n with
  | none =>
    refine ⟨e, ?_, hres⟩
    have hesc := handleAck_none_store_escalations s now uid rid aid eid repo n commenter h0
    rw [escalationWithDefaults_ack] at hesc
    have hfr : s.escalations.any
        (fun x => x.id == (ackNewEscalation now aid eid repo n).id) = false :=
      any_eq_false_of_find?_eq_none hfresh
    rw [upsertBy_fresh _ _ _ hfr] at hesc
    show (handleAckCommand s now uid rid aid eid repo n
      commenter).store.escalations.find? (fun y => y.id == id) = some e
    rw [hesc, List.find?_append, hfind2]
    rfl
  | some esc =>
    have h02 : s.escalations.find?
        (fun y => y.repository == repo && y.issueNumber == n) = some esc := h0
    unfold handleAckCommand
    rw [h0]
    dsimp only
    by_cases hstat : esc.status = EscalationStatus.pending ∨
        esc.status = EscalationStatus.escalated
    · rw [if_pos hstat]
      refine ⟨e, ?_, hres⟩
      rw [postIssueComment_store]
      have heid0 := List.find?_some hfind2
      have heid : e.id = id := eq_of_beq heid0
      have hne : ¬ ({ esc with status := EscalationStatus.acknowledged, updatedAt := now } : OnCallEscalation).id = id := by
        intro hcon
        exact resolved_ne_found s hu (List.mem_of_find?_eq_some hfind2)
          (List.mem_of_find?_eq_some h02) hres hstat (hcon.trans heid.symm)
      rw [findEscalationByID_updateEscalation_ne s now _ id hne]
      exact hfind
    · rw [if_neg hstat]
      exact ⟨e, hfind, hres⟩

theorem handleAckPR_resolved_preserved (s : Store) (now : Time)
    (uid rid aid eid repo : String) (n : Nat) (commenter : String)
    (hu : UniqueKeys (fun x : OnCallEscalation => x.id) s.escalations)
    (hfresh : findEscalationByID s eid = none)
    (id : String) (e : OnCallEscalation)
    (hfind : findEscalationByID s id = some e)
    (hres : e.status = EscalationStatus.resolved) :
    ∃ e2, findEscalationByID
        (handleAckPRCommand s now uid rid aid eid repo n commenter).store id = some e2 ∧
      e2.status = EscalationStatus.resolved := by
  have hfind2 : s.escalations.find? (fun y => y.id == id) = some e := hfind
  cases h0 : findEscalationByPR s repo n with
  | none =>
    refine ⟨e, ?_, hres⟩
    have hesc := handleAckPR_none_store_escalations s now uid rid aid eid repo n commenter h0
    rw [escalationWithDefaults_ackPR] at hesc
    have hfr : s.escalations.any
        (fun x => x.id == (ackPRNewEscalation now aid eid repo n).id) = false :=
      any_eq_false_of_find?_eq_none hfresh
    rw [upsertBy_fresh _ _ _ hfr] at hesc
    show (handleAckPRCommand s now uid rid aid eid repo n
      commenter).store.escalations.find? (fun y => y.id == id) = some e
    rw [hesc, List.find?_append, hfind2]
    rfl
  | some esc =>
    have h02 : s.escalations.find?
        (fun y => y.repository == repo && y.prNumber == n) = some esc := h0
    unfold handleAckPRCommand
    rw [h0]
    dsimp only
    by_cases hstat : esc.status = EscalationStatus.pending ∨
        esc.status = EscalationStatus.escalated
    · rw [if_pos hstat]
      refine ⟨e, ?_, hres⟩
      rw [postPRComment_store]
      have heid0 := List.find?_some hfind2
      have heid : e.id = id := eq_of_beq heid0
      have hne : ¬ ({ esc with status := EscalationStatus.acknowledged, updatedAt := now } : OnCallEscalation).id = id := by
        intro hcon
        exact resolved_ne_found s hu (List.mem_of_find?_eq_some hfind2)
          (List.mem_of_find?_eq_some h02) hres hstat (hcon.trans heid.symm)
      rw [findEscalationByID_updateEscalation_ne s now _ id hne]
      exact hfind
    · rw [if_neg hstat]
      exact ⟨e, hfind, hres⟩

theorem handleResolve_resolved_preserved (s : Store) (now : Time)
    (repo : String) (n : Nat) (commenter : String)
    (id : String) (e : OnCallEscalation)
    (hfind : findEscalationByID s id = some e)
    (hres : e.status = EscalationStatus.resolved) :
    ∃ e2, findEscalationByID (handleResolveCommand s now repo n commenter).store id =
        some e2 ∧ e2.status = EscalationStatus.resolved := by
  cases h0 : findEscalationByIssue s repo n with
  | none =>
    unfold handleResolveCommand
    rw [h0]
    exact ⟨e, hfind, hres⟩
  | some esc =>
    have h02 : s.escalations.find?
        (fun y => y.repository == repo && y.issueNumber == n) = some esc := h0
    unfold handleResolveCommand
    rw [h0]
    dsimp only
    rw [postIssueComment_store]
    by_cases hne : ({ esc with status := EscalationStatus.resolved, resolutionTime := now, updatedAt := now } : OnCallEscalation).id = id
    · have hpres : (s.escalations.any fun y => y.id ==
          ({ esc with status := EscalationStatus.resolved, resolutionTime := now, updatedAt := now } : OnCallEscalation).id) = true :=
        List.any_eq_true.mpr ⟨esc, List.mem_of_find?_eq_some h02, by simp⟩
      refine ⟨{ esc with status := EscalationStatus.resolved, resolutionTime := now, updatedAt := now }, ?_, rfl⟩
      rw [← hne]
      exact findEscalationByID_updateEscalation_present s now _ hpres
    · refine ⟨e, ?_, hres⟩
      rw [findEscalationByID_updateEscalation_ne s now _ id hne]
      exact hfind

theorem handleResolvePR_resolved_preserved (s : Store) (now : Time)
    (repo : String) (n : Nat) (commenter : String)
    (id : String) (e : OnCallEscalation)
    (hfind : findEscalationByID s id = some e)
    (hres : e.status = EscalationStatus.resolved) :
    ∃ e2, findEscalationByID (handleResolvePRCommand s now repo n commenter).store id =
        some e2 ∧ e2.status = EscalationStatus.resolved := by
  cases h0 : findEscalationByPR s repo n with
  | none =>
    unfold handleResolvePRCommand
    rw [h0]
    exact ⟨e, hfind, hres⟩
  | some esc =>
    have h02 : s.escalations.find?
        (fun y => y.repository == repo && y.prNumber == n) = some esc := h0
    unfold handleResolvePRCommand
    rw [h0]
    dsimp only
    rw [postPRComment_store]
    by_cases hne : ({ esc with status := EscalationStatus.resolved, resolutionTime := now, updatedAt := now } : OnCallEscalation).id = id
    · have hpres : (s.escalations.any fun y => y.id ==
          ({ esc with status := EscalationStatus.resolved, resolutionTime := now, updatedAt := now } : OnCallEscalation).id) = true :=
        List.any_eq_true.mpr ⟨esc, List.mem_of_find?_eq_some h02, by simp⟩
      refine ⟨{ esc with status := EscalationStatus.resolved, resolutionTime := now, updatedAt := now }, ?_, rfl⟩
      rw [← hne]
      exact findEscalationByID_updateEscalation_present s now _ hpres
    · refine ⟨e, ?_, hres⟩
      rw [findEscalationByID_updateEscalation_ne s now _ id hne]
      exact hfind

theorem handleAddUser_escalations (s : Store) (now : Time) (uid repo : String)
    (n : Nat) (username name : String) :
    (handleAddUserCommand s now uid repo n username name).store.escalations =
      s.escalations := by
  unfold handleAddUserCommand
  cases h : findUserByGitHubUsername s username with
  | some u =>
    dsimp only
    rw [postIssueComment_store]
  | none =>
    dsimp only
    rw [postIssueComment_store]
    rfl

theorem handleAddRotation_escalations (s : Store) (now : Time) (rid repo : String)
    (n : Nat) (commenter name : String) :
    (handleAddRotationCommand s now rid repo n commenter name).store.escalations =
      s.escalations := by
  unfold handleAddRotationCommand
  rw [postIssueComment_store]
  rfl

theorem handleAssignUser_escalations (s : Store) (now : Time) (aid repo : String)
    (n : Nat) (username rotationName : String) :
    (handleAssignUserCommand s now aid repo n username rotationName).store.escalations =
      s.escalations := by
  unfold handleAssignUserCommand
  cases h1 : findUserByGitHubUsername s username with
  | none =>
    dsimp only
    rw [postIssueComment_store]
  | some u =>
    dsimp only
    cases h2 : (findRotationsByRepository s repo).find?
        (fun r => r.name.data.map asciiLower == rotationName.data.map asciiLower) with
    | none =>
      dsimp only
      rw [postIssueComment_store]
    | some rot =>
      dsimp only
      rw [postIssueComment_store]
      rfl

theorem sweep_resolved_preserved (s : Store) (now : Time)
    (hu : UniqueKeys (fun x : OnCallEscalation => x.id) s.escalations)
    (id : String) (e : OnCallEscalation)
    (hfind : findEscalationByID s id = some e)
    (hres : e.status = EscalationStatus.resolved) :
    findEscalationByID (checkPendingEscalations s now).1 id = some e := by
  have hfind2 : s.escalations.find? (fun y => y.id == id) = some e := hfind
  have hQ : ∀ x ∈ findEscalationsByStatus s EscalationStatus.pending, ¬ x.id = id := by
    intro x hx heq
    have hmem_x : x ∈ s.escalations := List.mem_of_mem_filter hx
    have hpend : (x.status == EscalationStatus.pending) = true := (List.mem_filter.mp hx).2
    have hmem_e : e ∈ s.escalations := List.mem_of_find?_eq_some hfind2
    have heid0 := List.find?_some hfind2
    have heid : e.id = id := eq_of_beq heid0
    have hxe : x = e := eq_of_mem_countP_le_one (hu e.id) hmem_x hmem_e
      (by simp [heq, heid]) (by simp)
    rw [hxe, hres] at hpend
    simp at hpend
  unfold checkPendingEscalations
  rw [foldl_sweep_lookup_preserved now id _ hQ]
  exact hfind

/-- Claim C1: for every rotation R and every sequence of
CreateAssignment/UpdateAssignment writes applied from the empty store,
the assignment collection holds at most one assignment with
rotationID = R and isCurrent = true; quantifying over every sequence
covers the state after each operation of a longer sequence, so the
invariant holds after each operation. -/
theorem C1_current_assignment_invariant (ops : List AssignmentOp) (R : String) :
    currentCount (applyAssignmentOps emptyStore ops).assignments R ≤ 1 := by
  refine (applyAssignmentOps_preserves ops emptyStore ?_ ?_).2 R
  · intro k
    simp [emptyStore]
  · intro R2
    simp [emptyStore, currentCount]

/-- Claim C4: from a store with no escalation for the key
(repository, issueNumber), handling /ack twice for that key leaves
exactly one escalation for the key, whose status is acknowledged after
the first and after the second invocation; the second invocation finds
the stored row through the key lookup instead of creating a duplicate. -/
theorem C4_ack_twice_idempotent (s : Store) (now1 now2 : Time)
    (uid1 rid1 aid1 eid1 uid2 rid2 aid2 eid2 repo commenter1 commenter2 : String)
    (n : Nat)
    (h0 : findEscalationByIssue s repo n = none)
    (hfresh : findEscalationByID s eid1 = none) :
    ((handleAckCommand s now1 uid1 rid1 aid1 eid1 repo n commenter1).store.escalations.countP
        (fun e => e.repository == repo && e.issueNumber == n) = 1 ∧
      (findEscalationByIssue (handleAckCommand s now1 uid1 rid1 aid1 eid1 repo n
          commenter1).store repo n).map (fun e => e.status) =
        some EscalationStatus.acknowledged) ∧
    ((handleAckCommand (handleAckCommand s now1 uid1 rid1 aid1 eid1 repo n commenter1).store
        now2 uid2 rid2 aid2 eid2 repo n commenter2).store.escalations.countP
        (fun e => e.repository == repo && e.issueNumber == n) = 1 ∧
      (findEscalationByIssue
          (handleAckCommand (handleAckCommand s now1 uid1 rid1 aid1 eid1 repo n
            commenter1).store now2 uid2 rid2 aid2 eid2 repo n commenter2).store repo
          n).map (fun e => e.status) = some EscalationStatus.acknowledged) := by
  have hstore1 : (handleAckCommand s now1 uid1 rid1 aid1 eid1 repo n
      commenter1).store.escalations =
      s.escalations ++ [ackNewEscalation now1 aid1 eid1 repo n] := by
    rw [handleAck_none_store_escalations s now1 uid1 rid1 aid1 eid1 repo n commenter1 h0,
        escalationWithDefaults_ack]
    exact upsertBy_fresh _ _ _ (any_eq_false_of_find?_eq_none hfresh)
  have h0' : s.escalations.find?
      (fun e => e.repository == repo && e.issueNumber == n) = none := h0
  have hcount1 : (handleAckCommand s now1 uid1 rid1 aid1 eid1 repo n
      commenter1).store.escalations.countP
      (fun e => e.repository == repo && e.issueNumber == n) = 1 := by
    rw [hstore1, List.countP_append, countP_eq_zero_of_find?_eq_none h0']
    simp [ackNewEscalation]
  have hfind1 : findEscalationByIssue (handleAckCommand s now1 uid1 rid1 aid1 eid1 repo n
      commenter1).store repo n = some (ackNewEscalation now1 aid1 eid1 repo n) := by
    show ((handleAckCommand s now1 uid1 rid1 aid1 eid1 repo n
        commenter1).store.escalations.find?
        (fun e => e.repository == repo && e.issueNumber == n)) = _
    rw [hstore1, List.find?_append, h0', Option.none_or]
    simp [ackNewEscalation]
  generalize hS : (handleAckCommand s now1 uid1 rid1 aid1 eid1 repo n commenter1).store = S
    at hstore1 hcount1 hfind1 ⊢
  have hr2 : handleAckCommand S now2 uid2 rid2 aid2 eid2 repo n commenter2 =
      ⟨S, [], none⟩ := by
    unfold handleAckCommand
    rw [hfind1]
    dsimp only
    rw [if_neg]
    simp [ackNewEscalation]
  refine ⟨⟨hcount1, ?_⟩, ?_, ?_⟩
  · rw [hfind1]
    rfl
  · rw [hr2]
    exact hcount1
  · rw [hr2]
    rw [hfind1]
    rfl

/-- Witness for C4: both invocations applied from the empty store on
acme/repo issue 7. -/
theorem C4_ack_twice_idempotent_witness :
    ((handleAckCommand emptyStore 100 "u1" "r1" "a1" "e1" "acme/repo" 7
        "alice").store.escalations.countP
        (fun e => e.repository == "acme/repo" && e.issueNumber == 7) = 1 ∧
      (findEscalationByIssue (handleAckCommand emptyStore 100 "u1" "r1" "a1" "e1" "acme/repo" 7
          "alice").store "acme/repo" 7).map (fun e => e.status) =
        some EscalationStatus.acknowledged) ∧
    ((handleAckCommand (handleAckCommand emptyStore 100 "u1" "r1" "a1" "e1" "acme/repo" 7
        "alice").store 200 "u2" "r2" "a2" "e2" "acme/repo" 7 "bob").store.escalations.countP
        (fun e => e.repository == "acme/repo" && e.issueNumber == 7) = 1 ∧
      (findEscalationByIssue
          (handleAckCommand (handleAckCommand emptyStore 100 "u1" "r1" "a1" "e1" "acme/repo" 7
            "alice").store 200 "u2" "r2" "a2" "e2" "acme/repo" 7 "bob").store "acme/repo"
          7).map (fun e => e.status) = some EscalationStatus.acknowledged) :=
  C4_ack_twice_idempotent emptyStore 100 200 "u1" "r1" "a1" "e1" "u2" "r2" "a2" "e2"
    "acme/repo" "alice" "bob" 7 (by decide) (by decide)

/-- Claim C9: on a sweeper tick at time now, a stored pending escalation
that references an issue or a PR and whose deadline createdAt + threshold
is still in the future is left unchanged, while one whose deadline is at
or before now is transitioned to escalated with its escalation timestamp
set to now, and the automatic notification naming its issue (or, for a
PR-only escalation, its PR) is posted. -/
theorem C9_sweep_threshold (s : Store) (now : Time) (e : OnCallEscalation)
    (hu : UniqueKeys (fun x : OnCallEscalation => x.id) s.escalations)
    (hmem : findEscalationByID s e.id = some e)
    (hpend : e.status = EscalationStatus.pending)
    (hrepo : RepoSplitsInTwo e.repository)
    (htarget : e.issueNumber ≠ 0 ∨ e.prNumber ≠ 0) :
    (e.createdAt + EscalationThreshold > now →
      findEscalationByID (checkPendingEscalations s now).1 e.id = some e) ∧
    (e.createdAt + EscalationThreshold ≤ now →
      findEscalationByID (checkPendingEscalations s now).1 e.id =
        some { e with status := EscalationStatus.escalated, escalationTime := now,
                      updatedAt := now } ∧
      (if e.issueNumber ≠ 0 then
        (⟨e.repository, e.issueNumber,
          "This issue has been automatically escalated due to lack of acknowledgment."⟩ :
          Notification) ∈ (checkPendingEscalations s now).2
      else
        (⟨e.repository, e.prNumber,
          "This pull request has been automatically escalated due to lack of acknowledgment."⟩ :
          Notification) ∈ (checkPendingEscalations s now).2)) := by
  have hemem : e ∈ s.escalations := List.mem_of_find?_eq_some hmem
  have hememP : e ∈ findEscalationsByStatus s EscalationStatus.pending := by
    unfold findEscalationsByStatus
    exact List.mem_filter.mpr ⟨hemem, by simp [hpend]⟩
  obtain ⟨P1, P2, hP⟩ := List.append_of_mem hememP
  have huP : (findEscalationsByStatus s EscalationStatus.pending).countP
      (fun x => x.id == e.id) ≤ 1 := by
    unfold findEscalationsByStatus
    calc (s.escalations.filter
          (fun x => x.status == EscalationStatus.pending)).countP (fun x => x.id == e.id)
        = s.escalations.countP
            (fun a => (a.id == e.id) && (a.status == EscalationStatus.pending)) :=
          List.countP_filter _ _ _
      _ ≤ s.escalations.countP (fun x => x.id == e.id) :=
          List.countP_mono_left (fun x _ h => bool_and_left h)
      _ ≤ 1 := hu e.id
  have hcount2 : (P1 ++ e :: P2).countP (fun x => x.id == e.id) ≤ 1 := by
    rw [← hP]
    exact huP
  have hzero : P1.countP (fun x => x.id == e.id) = 0 ∧
      P2.countP (fun x => x.id == e.id) = 0 := by
    rw [List.countP_append, List.countP_cons] at hcount2
    rw [if_pos (by simp)] at hcount2
    omega
  have hP1 : ∀ x ∈ P1, ¬ x.id = e.id := by
    intro x hx heq
    exact (List.countP_eq_zero.mp hzero.1 x hx) (by simp [heq])
  have hP2 : ∀ x ∈ P2, ¬ x.id = e.id := by
    intro x hx heq
    exact (List.countP_eq_zero.mp hzero.2 x hx) (by simp [heq])
  have hrw : checkPendingEscalations s now =
      P2.foldl (sweepOne now)
        (sweepOne now (P1.foldl (sweepOne now) (s, [])) e) := by
    unfold checkPendingEscalations
    rw [hP, List.foldl_append, List.foldl_cons]
  have hacc1 : findEscalationByID ((P1.foldl (sweepOne now)
      (s, ([] : List Notification))).1) e.id = some e := by
    rw [foldl_sweep_lookup_preserved now e.id P1 hP1]
    exact hmem
  constructor
  · intro hlt
    have hskip : now < e.createdAt + EscalationThreshold := hlt
    have hstep : sweepOne now (P1.foldl (sweepOne now) (s, [])) e =
        P1.foldl (sweepOne now) (s, []) := by
      unfold sweepOne
      rw [if_pos hskip]
    rw [hrw, hstep, foldl_sweep_lookup_preserved now e.id P2 hP2]
    exact hacc1
  · intro hle
    have hdue : ¬ (now < e.createdAt + EscalationThreshold) := not_lt.mpr hle
    have hpres : ((P1.foldl (sweepOne now) (s, ([] : List Notification))).1.escalations.any
        fun y => y.id == e.id) = true := any_of_find?_eq_some hacc1
    have hlookupd : findEscalationByID
        (updateEscalation (P1.foldl (sweepOne now) (s, ([] : List Notification))).1 now
          { e with status := EscalationStatus.escalated, escalationTime := now,
                   updatedAt := now }) e.id =
        some { e with status := EscalationStatus.escalated, escalationTime := now,
                      updatedAt := now } :=
      findEscalationByID_updateEscalation_present _ now _ hpres
    by_cases hI : e.issueNumber ≠ 0
    · have hstep : sweepOne now (P1.foldl (sweepOne now) (s, [])) e =
          (updateEscalation (P1.foldl (sweepOne now) (s, [])).1 now
            { e with status := EscalationStatus.escalated, escalationTime := now,
                     updatedAt := now },
           (P1.foldl (sweepOne now) (s, ([] : List Notification))).2 ++
            [⟨e.repository, e.issueNumber,
              "This issue has been automatically escalated due to lack of acknowledgment."⟩]) := by
        unfold sweepOne
        rw [if_neg hdue]
        dsimp only
        rw [if_pos hI]
        rw [postIssueComment_valid _ _ _ _ hrepo]
      rw [hrw, hstep]
      constructor
      · rw [foldl_sweep_lookup_preserved now e.id P2 hP2]
        exact hlookupd
      · rw [if_pos hI]
        refine foldl_sweep_notes_mono now _ P2 _ ?_
        exact List.mem_append_right _ (by simp)
    · have hI0 : e.issueNumber = 0 := not_ne_iff.mp hI
      have hPR : e.prNumber ≠ 0 := by
        cases htarget with
        | inl h => exact absurd h hI
        | inr h => exact h
      have hstep : sweepOne now (P1.foldl (sweepOne now) (s, [])) e =
          (updateEscalation (P1.foldl (sweepOne now) (s, [])).1 now
            { e with status := EscalationStatus.escalated, escalationTime := now,
                     updatedAt := now },
           (P1.foldl (sweepOne now) (s, ([] : List Notification))).2 ++
            [⟨e.repository, e.prNumber,
              "This pull request has been automatically escalated due to lack of acknowledgment."⟩]) := by
        unfold sweepOne
        rw [if_neg hdue]
        dsimp only
        rw [if_neg hI, if_pos hPR]
        rw [postPRComment_valid _ _ _ _ hrepo]
      rw [hrw, hstep]
      constructor
      · rw [foldl_sweep_lookup_preserved now e.id P2 hP2]
        exact hlookupd
      · rw [if_neg hI]
        refine foldl_sweep_notes_mono now _ P2 _ ?_
        exact List.mem_append_right _ (by simp)

/-- Witness for C9: the pending escalation for acme/repo issue 5 created
at time 0 is untouched by a sweep at 86399 (one second before the
24-hour threshold) and is escalated with a posted issue notification by
a sweep at 86401 (one second past it). -/
theorem C9_sweep_threshold_witness :
    findEscalationByID (checkPendingEscalations sweepStore 86399).1 "e1" =
      some sweepEsc ∧
    (findEscalationByID (checkPendingEscalations sweepStore 86401).1 "e1" =
      some { sweepEsc with status := EscalationStatus.escalated, escalationTime := 86401,
                           updatedAt := 86401 } ∧
     (if sweepEsc.issueNumber ≠ 0 then
        (⟨sweepEsc.repository, sweepEsc.issueNumber,
          "This issue has been automatically escalated due to lack of acknowledgment."⟩ :
          Notification) ∈ (checkPendingEscalations sweepStore 86401).2
      else
        (⟨sweepEsc.repository, sweepEsc.prNumber,
          "This pull request has been automatically escalated due to lack of acknowledgment."⟩ :
          Notification) ∈ (checkPendingEscalations sweepStore 86401).2)) :=
  ⟨(C9_sweep_threshold sweepStore 86399 sweepEsc
      (fun k => by simp [sweepStore, sweepEsc, emptyStore, List.countP_singleton]; split <;> omega)
      (by decide) (by decide) ⟨"acme".data, "repo".data, by decide⟩ (Or.inl (by decide))).1
    (by decide),
   (C9_sweep_threshold sweepStore 86401 sweepEsc
      (fun k => by simp [sweepStore, sweepEsc, emptyStore, List.countP_singleton]; split <;> omega)
      (by decide) (by decide) ⟨"acme".data, "repo".data, by decide⟩ (Or.inl (by decide))).2
    (by decide)⟩

/-- Claim C10: /escalate on an issue with no existing escalation for the
key creates a new escalation with status escalated and escalation
timestamp set to the invocation time; when the repository has no rotation
or its first rotation has no current assignment, the generic escalation
notification is posted and the handler completes without error. -/
theorem C10_escalate_fallback (s : Store) (now : Time) (eid repo : String) (n : Nat)
    (h0 : findEscalationByIssue s repo n = none)
    (hfresh : findEscalationByID s eid = none)
    (hsplit : RepoSplitsInTwo repo)
    (hfb : findRotationsByRepository s repo = [] ∨
      ∃ r rest, findRotationsByRepository s repo = r :: rest ∧
        findCurrentAssignmentByRotation s r.id = none) :
    (handleEscalateCommand s now eid repo n).err = none ∧
    (handleEscalateCommand s now eid repo n).notes =
      [⟨repo, n, "This issue has been marked for escalation."⟩] ∧
    (findEscalationByIssue (handleEscalateCommand s now eid repo n).store repo n).map
      (fun e => (e.status, e.escalationTime)) =
      some (EscalationStatus.escalated, now) := by
  rw [handleEscalate_none_fallback_result s now eid repo n h0 hsplit hfb]
  refine ⟨rfl, rfl, ?_⟩
  show ((createEscalation s eid now
      (escalateNewEscalation now eid repo n)).escalations.find?
      (fun e => e.repository == repo && e.issueNumber == n)).map
      (fun e => (e.status, e.escalationTime)) = _
  have hfr : s.escalations.any
      (fun x => x.id == (escalateNewEscalation now eid repo n).id) = false :=
    any_eq_false_of_find?_eq_none hfresh
  rw [createEscalation_escalations, escalationWithDefaults_escalate,
      upsertBy_fresh _ _ _ hfr, List.find?_append]
  have h0' : s.escalations.find?
      (fun e => e.repository == repo && e.issueNumber == n) = none := h0
  rw [h0', Option.none_or]
  simp [escalateNewEscalation]

/-- Witness for C10: /escalate on acme/repo issue 9 from the empty store,
which has no rotation. -/
theorem C10_escalate_fallback_witness :
    (handleEscalateCommand emptyStore 100 "e1" "acme/repo" 9).err = none ∧
    (handleEscalateCommand emptyStore 100 "e1" "acme/repo" 9).notes =
      [⟨"acme/repo", 9, "This issue has been marked for escalation."⟩] ∧
    (findEscalationByIssue (handleEscalateCommand emptyStore 100 "e1" "acme/repo" 9).store
      "acme/repo" 9).map (fun e => (e.status, e.escalationTime)) =
      some (EscalationStatus.escalated, 100) :=
  C10_escalate_fallback emptyStore 100 "e1" "acme/repo" 9 (by decide) (by decide)
    ⟨"acme".data, "repo".data, by decide⟩ (Or.inl (by decide))

set_option maxRecDepth 40000 in
/-- Claim C6 counterexample: the gateway also accepts the header formed
with the uppercase hexadecimal digits of the correct HMAC, although that
header differs from sha256= followed by the (lowercase) hex encoding —
hex.DecodeString accepts both cases, so acceptance is not equality with
the encoded form. -/
theorem C6_uppercase_hex_accepted :
    verifySignature sigSecret sigPayload
        ("sha256=" ++ hexEncodeUpper (hmacSha256 sigSecret sigPayload)) = true ∧
    "sha256=" ++ hexEncodeUpper (hmacSha256 sigSecret sigPayload) ≠
      "sha256=" ++ hexEncode (hmacSha256 sigSecret sigPayload) := by
  decide

/-- Claim C6 as amended: the signature check accepts a request exactly
when its header is sha256= followed by a hex string (upper or lower case
digits) that decodes to the HMAC-SHA256 of the received body under the
shared secret. -/
theorem C6_verify_accepts_iff (secret payload : List Nat) (sig : String) :
    verifySignature secret payload sig = true ↔
      ∃ hx : String, sig = "sha256=" ++ hx ∧
        hexDecode hx = some (hmacSha256 secret payload) := by
  unfold verifySignature
  constructor
  · intro hacc
    by_cases hpre : "sha256=".data.isPrefixOf sig.data = true
    · rw [if_pos hpre] at hacc
      obtain ⟨t, ht⟩ := List.isPrefixOf_iff_prefix.mp hpre
      have hdrop : sig.data.drop 7 = t := by
        rw [← ht]
        exact List.drop_left "sha256=".data t
      rw [hdrop] at hacc
      cases hdec : hexDecodeChars t with
      | none => rw [hdec] at hacc; exact absurd hacc (by simp)
      | some m =>
        rw [hdec] at hacc
        have hm : m = hmacSha256 secret payload := by
          simpa using hacc
        refine ⟨⟨t⟩, ?_, ?_⟩
        · apply String.ext
          show sig.data = ("sha256=" ++ (⟨t⟩ : String)).data
          rw [String.data_append]
          exact ht.symm
        · show hexDecodeChars t = some (hmacSha256 secret payload)
          rw [hdec, hm]
    · rw [if_neg hpre] at hacc
      exact absurd hacc (by simp)
  · rintro ⟨hx, rfl, hdec⟩
    have hdata : ("sha256=" ++ hx).data = "sha256=".data ++ hx.data :=
      String.data_append _ _
    have hpre : "sha256=".data.isPrefixOf ("sha256=" ++ hx).data = true := by
      rw [hdata]
      exact List.isPrefixOf_iff_prefix.mpr (List.prefix_append _ _)
    rw [if_pos hpre]
    have hdrop : ("sha256=" ++ hx).data.drop 7 = hx.data := by
      rw [hdata]
      exact List.drop_left "sha256=".data hx.data
    rw [hdrop]
    have hdec2 : hexDecodeChars hx.data = some (hmacSha256 secret payload) := hdec
    rw [hdec2]
    simp

/-- Claim C5 counterexample: resolved is not terminal. The /escalate
command on an issue whose stored escalation has status resolved sets the
escalation back to escalated (models.go handleEscalateCommand lines
574-589, whose some-branch updates the status unconditionally): on a
store holding only the resolved escalation e9 for acme/repo issue 7, the
command leaves e9 with status escalated. -/
theorem C5_escalate_reescalates_resolved :
    findEscalationByID resolvedStore "e9" = some resolvedEsc ∧
    resolvedEsc.status = EscalationStatus.resolved ∧
    (findEscalationByID
        (applySysOp resolvedStore (SysOp.escalate 100 "e10" "acme/repo" 7)) "e9").map
      (fun x => x.status) = some EscalationStatus.escalated := by
  decide

/-- Claim C5 as amended: every system operation other than the two
escalate commands preserves resolved escalations. If the store keeps
escalation ids unique, fresh ids are fresh, and the store holds an
escalation with status resolved under some id, then after any ack,
resolve, add-user, add-rotation, assign or sweep operation the store
still holds a resolved escalation under that id. The escalate commands
are the exception exhibited by the counterexample. -/
theorem C5_resolved_terminal_except_escalate (s : Store) (op : SysOp)
    (hop : op.isEscalateCmd = false)
    (hu : UniqueKeys (fun x : OnCallEscalation => x.id) s.escalations)
    (hfresh : escalationIdFresh s op)
    (id : String) (e : OnCallEscalation)
    (hfind : findEscalationByID s id = some e)
    (hres : e.status = EscalationStatus.resolved) :
    ∃ e2, findEscalationByID (applySysOp s op) id = some e2 ∧
      e2.status = EscalationStatus.resolved := by
  cases op with
  | ack now uid rid aid eid repo n c =>
    exact handleAck_resolved_preserved s now uid rid aid eid repo n c hu hfresh id e
      hfind hres
  | ackPR now uid rid aid eid repo n c =>
    exact handleAckPR_resolved_preserved s now uid rid aid eid repo n c hu hfresh id e
      hfind hres
  | escalate now eid repo n => simp [SysOp.isEscalateCmd] at hop
  | escalatePR now eid repo n => simp [SysOp.isEscalateCmd] at hop
  | resolve now repo n c =>
    exact handleResolve_resolved_preserved s now repo n c id e hfind hres
  | resolvePR now repo n c =>
    exact handleResolvePR_resolved_preserved s now repo n c id e hfind hres
  | addUser now uid repo n u name =>
    refine ⟨e, ?_, hres⟩
    show (handleAddUserCommand s now uid repo n u name).store.escalations.find?
      (fun y => y.id == id) = some e
    rw [handleAddUser_escalations]
    exact hfind
  | addRotation now rid repo n c name =>
    refine ⟨e, ?_, hres⟩
    show (handleAddRotationCommand s now rid repo n c name).store.escalations.find?
      (fun y => y.id == id) = some e
    rw [handleAddRotation_escalations]
    exact hfind
  | assignUser now aid repo n u r =>
    refine ⟨e, ?_, hres⟩
    show (handleAssignUserCommand s now aid repo n u r).store.escalations.find?
      (fun y => y.id == id) = some e
    rw [handleAssignUser_escalations]
    exact hfind
  | sweep now =>
    exact ⟨e, sweep_resolved_preserved s now hu id e hfind hres, hres⟩

/-- Witness for C5: a /resolve on a different issue of a different
repository leaves the resolved escalation e9 resolved. -/
theorem C5_resolved_terminal_witness :
    ∃ e2, findEscalationByID
        (applySysOp resolvedStore (SysOp.resolve 100 "other/repo" 1 "bob")) "e9" =
        some e2 ∧ e2.status = EscalationStatus.resolved :=
  C5_resolved_terminal_except_escalate resolvedStore
    (SysOp.resolve 100 "other/repo" 1 "bob") rfl
    (fun k => by
      simp [resolvedStore, resolvedEsc, emptyStore, List.countP_singleton]
      split <;> omega)
    True.intro "e9" resolvedEsc (by decide) rfl

end Otto
